import Mathlib

/-!
Shallow embedding of the text-to-structured-data extraction engine of
`src/data_extraction/extract_steel_data.py` (the schema/Measurement-based
extractor), together with theorems settling the frozen claims about it.

Modelling conventions:
* Python strings are modelled as `List Char` internally; public entry points
  take `String` and work on `.data`.
* Python floats are modelled as `ℚ` (all numeric literals in the source are
  exact decimals and all unit converters are affine maps, so no rounding
  behaviour of binary floats is relied on by any claim).
* Python regexes are hand-translated into deterministic character scanners.
  For every pattern appearing in the source the pattern is such that greedy
  left-to-right scanning coincides with Python's backtracking semantics; the
  translation of each pattern is documented at its definition.
* Scanners that advance through the input by a computed amount use an explicit
  fuel argument for structural termination; every wrapper passes fuel that is
  at least the input length, which is sufficient because each step consumes at
  least one character and one unit of fuel.
* `float()` is modelled on numeric literals (sign, digits, decimal point,
  exponent); the `inf`/`nan`/underscore spellings accepted by Python cannot be
  produced by the tokenizers in this code path.
* `logger.warning(fmt, a, b)` calls are modelled by accumulating the formatted
  message strings in a returned list (`%s` interpolation of `None` renders as
  "None", as in Python).
-/

/-! ## Character utilities -/

/-- Whitespace as used by Python `str.strip` / regex `\s` for the characters
occurring in this code base (ASCII whitespace plus the non-breaking, thin and
ideographic spaces that appear in the source's alias tables). -/
def pyWs (c : Char) : Bool :=
  c = ' ' || c = '\t' || c = '\n' || c = '\r' || c = '\x0b' || c = '\x0c' ||
  c = ' ' || c = ' ' || c = ' ' || c = '　'

def isDigitCh (c : Char) : Bool := '0' ≤ c && c ≤ '9'

def isAlphaCh (c : Char) : Bool := ('a' ≤ c && c ≤ 'z') || ('A' ≤ c && c ≤ 'Z')

def isAlnumCh (c : Char) : Bool := isAlphaCh c || isDigitCh c

/-- ASCII lowercasing, as done by `str.lower()` / `re.IGNORECASE` on the
alphabets used in the source (non-ASCII characters are unaffected). -/
def lowerAscii (c : Char) : Char :=
  if 'A' ≤ c ∧ c ≤ 'Z' then Char.ofNat (c.toNat + 32) else c

def digitVal (c : Char) : ℕ := c.toNat - 48

def dropTrailingWs (s : List Char) : List Char := (s.reverse.dropWhile pyWs).reverse

/-- Python `str.strip()`. -/
def pyStrip (s : List Char) : List Char := dropTrailingWs (s.dropWhile pyWs)

/-- Replace every character `a` by `b` (`str.replace` with single characters). -/
def chSub (a b : Char) (s : List Char) : List Char :=
  s.map (fun c => if c = a then b else c)

/-- Delete every occurrence of character `a` (`str.replace(a, "")`). -/
def chDel (a : Char) (s : List Char) : List Char := s.filter (fun c => c ≠ a)

/-- Python `str.replace(pat, rep)` for a non-empty `pat`: leftmost,
non-overlapping. Fuel ≥ input length makes this total. -/
def replaceSub (pat rep : List Char) : ℕ → List Char → List Char
  | _, [] => []
  | 0, s => s
  | fuel + 1, c :: rest =>
    if !pat.isEmpty && pat.isPrefixOf (c :: rest) then
      rep ++ replaceSub pat rep fuel ((c :: rest).drop pat.length)
    else
      c :: replaceSub pat rep fuel rest

/-- `_SUPERSCRIPT_TRANSLATION`: superscript digits become `^digit`, subscript
digits become plain digits, superscript minus becomes `-`. -/
def superTrans (c : Char) : List Char :=
  match c with
  | '⁰' => ['^', '0']
  | '¹' => ['^', '1']
  | '²' => ['^', '2']
  | '³' => ['^', '3']
  | '⁴' => ['^', '4']
  | '⁵' => ['^', '5']
  | '⁶' => ['^', '6']
  | '⁷' => ['^', '7']
  | '⁸' => ['^', '8']
  | '⁹' => ['^', '9']
  | '₀' => ['0']
  | '₁' => ['1']
  | '₂' => ['2']
  | '₃' => ['3']
  | '₄' => ['4']
  | '₅' => ['5']
  | '₆' => ['6']
  | '₇' => ['7']
  | '₈' => ['8']
  | '₉' => ['9']
  | '⁻' => ['-']
  | c => [c]

/-- `str.translate(_SUPERSCRIPT_TRANSLATION)`. -/
def superTranslate (s : List Char) : List Char := s.flatMap superTrans

/-- Is `needle` a substring (Python `in` on strings)? -/
def containsSub (needle : List Char) : List Char → Bool
  | [] => needle.isEmpty
  | c :: rest => needle.isPrefixOf (c :: rest) || containsSub needle rest

def digitsToNat (l : List Char) : ℕ := l.foldl (fun a c => a * 10 + digitVal c) 0

def spanDigits (s : List Char) : List Char × List Char :=
  (s.takeWhile isDigitCh, s.dropWhile isDigitCh)

/-! ## `float()` on numeric literals -/

/-- Python `float(token)` restricted to numeric literals:
optional sign, digits with optional decimal point (at least one digit), and an
optional exponent. Returns `none` exactly when Python raises `ValueError`
(the `inf`/`nan` spellings cannot reach this call in the embedded code path,
since every token fed to it went through digit-centred tokenization). -/
def pyFloat (s : List Char) : Option ℚ :=
  let t := pyStrip s
  let signAndRest : ℚ × List Char :=
    match t with
    | '+' :: r => (1, r)
    | '-' :: r => (-1, r)
    | r => (1, r)
  let sign := signAndRest.1
  let t1 := signAndRest.2
  let ipr := spanDigits t1
  let ip := ipr.1
  let fpr : List Char × List Char :=
    match ipr.2 with
    | '.' :: r => spanDigits r
    | r => ([], r)
  let fp := fpr.1
  if ip.isEmpty && fp.isEmpty then none
  else
    let mant : ℚ := (digitsToNat ip : ℚ) + (digitsToNat fp : ℚ) / (10 : ℚ) ^ fp.length
    match fpr.2 with
    | [] => some (sign * mant)
    | 'e' :: r3 =>
      let esr : ℤ × List Char :=
        match r3 with
        | '+' :: r => (1, r)
        | '-' :: r => (-1, r)
        | r => (1, r)
      let edr := spanDigits esr.2
      if edr.1.isEmpty || !edr.2.isEmpty then none
      else some (sign * mant * (10 : ℚ) ^ (esr.1 * (digitsToNat edr.1 : ℤ)))
    | 'E' :: r3 =>
      let esr : ℤ × List Char :=
        match r3 with
        | '+' :: r => (1, r)
        | '-' :: r => (-1, r)
        | r => (1, r)
      let edr := spanDigits esr.2
      if edr.1.isEmpty || !edr.2.isEmpty then none
      else some (sign * mant * (10 : ℚ) ^ (esr.1 * (digitsToNat edr.1 : ℤ)))
    | _ => none

/-! ## `parse_single_numeric` -/

/-- `re.sub(r"x10-(?=\d)", "x10^-", token)` and the `x10+` variant:
replace `"x10" ++ [sgn]` followed by a digit with `rep`. -/
def subX10SignDigit (sgn : Char) (rep : List Char) : ℕ → List Char → List Char
  | _, [] => []
  | 0, s => s
  | fuel + 1, c :: rest =>
    let s := c :: rest
    if ('x' :: '1' :: '0' :: [sgn]).isPrefixOf s &&
        (match s.drop 4 with | d :: _ => isDigitCh d | [] => false) then
      rep ++ subX10SignDigit sgn rep fuel (s.drop 4)
    else
      c :: subX10SignDigit sgn rep fuel rest

/-- `re.sub(r"10\s*-(?=\d)", "10^-", token)` and the `10\s*\+` variant:
`"10"`, optional whitespace, the sign character, with a digit lookahead (the
digit is not consumed). -/
def subTenWsSign (sgn : Char) (rep : List Char) : ℕ → List Char → List Char
  | _, [] => []
  | 0, s => s
  | fuel + 1, c :: rest =>
    let s := c :: rest
    if ('1' :: '0' :: []).isPrefixOf s then
      let afterTen := s.drop 2
      let w := (afterTen.takeWhile pyWs).length
      match afterTen.drop w with
      | d :: e :: _ =>
        if d = sgn ∧ isDigitCh e then
          rep ++ subTenWsSign sgn rep fuel ((afterTen.drop w).drop 1)
        else
          c :: subTenWsSign sgn rep fuel rest
      | _ => c :: subTenWsSign sgn rep fuel rest
    else
      c :: subTenWsSign sgn rep fuel rest

/-- `re.sub(r"x10\^?([-+]?\d+)", lambda m: "e" + m.group(1), token)`. -/
def subX10Caret : ℕ → List Char → List Char
  | _, [] => []
  | 0, s => s
  | fuel + 1, c :: rest =>
    let s := c :: rest
    if ('x' :: '1' :: '0' :: []).isPrefixOf s then
      let r1 := s.drop 3
      let r2 := if r1.head? = some '^' then r1.drop 1 else r1
      let sgnRest : List Char × List Char :=
        match r2 with
        | '-' :: r => (['-'], r)
        | '+' :: r => (['+'], r)
        | r => ([], r)
      let ds := sgnRest.2.takeWhile isDigitCh
      if ds.isEmpty then c :: subX10Caret fuel rest
      else 'e' :: (sgnRest.1 ++ ds) ++ subX10Caret fuel (sgnRest.2.drop ds.length)
    else
      c :: subX10Caret fuel rest

/-- `parse_single_numeric(value_str)`: the chain of typographic normalizations
followed by `float()`; `None` on failure. -/
def parse_single_numeric (value_str : List Char) : Option ℚ :=
  let token := pyStrip value_str
  if token.isEmpty then none else
  let token := chSub '−' '-' token
  let token := chSub '–' '-' token
  let token := chSub '—' '-' token
  let token := chSub '﹣' '-' token
  let token := chSub '＋' '+' token
  let token := superTranslate token
  let token := chSub '×' 'x' token
  let token := chSub 'X' 'x' token
  let token := chSub '·' '.' token
  let token := chSub '⋅' '.' token
  let token := chSub '、' '.' token
  let token := subX10SignDigit '-' ('x' :: '1' :: '0' :: '^' :: ['-']) token.length token
  let token := subX10SignDigit '+' ('x' :: '1' :: '0' :: ['^']) token.length token
  let token := subTenWsSign '-' ('1' :: '0' :: '^' :: ['-']) token.length token
  let token := subTenWsSign '+' ('1' :: '0' :: ['^']) token.length token
  let token := chDel ' ' token
  let token := replaceSub ('e' :: ['+']) ['e'] token.length token
  let token := chSub 'E' 'e' token
  let token := subX10Caret token.length token
  let token := replaceSub ('-' :: ['-']) ['-'] token.length token
  let token :=
    if token.contains ',' && !token.contains '.' then chSub ',' '.' token
    else chDel ',' token
  pyFloat token

/-! ## `split_range_parts` and `parse_numeric_expression` -/

/-- One range separator of `to|至|～|〜|~` at the head of `s` (case-insensitive
for `to`); returns the number of characters it spans. -/
def isSep1At (s : List Char) : Option ℕ :=
  match s with
  | c :: d :: _ =>
    if lowerAscii c = 't' ∧ lowerAscii d = 'o' then some 2
    else if c = '至' ∨ c = '～' ∨ c = '〜' ∨ c = '~' then some 1 else none
  | [c] => if c = '至' ∨ c = '～' ∨ c = '〜' ∨ c = '~' then some 1 else none
  | [] => none

/-- `re.sub(r"\s*(?:to|至|～|〜|~)\s*", "|", text)`. -/
def subRangeSep1 : ℕ → List Char → List Char
  | _, [] => []
  | 0, s => s
  | fuel + 1, c :: rest =>
    let s := c :: rest
    let w := (s.takeWhile pyWs).length
    match isSep1At (s.drop w) with
    | some k =>
      let afterSep := s.drop (w + k)
      let w2 := (afterSep.takeWhile pyWs).length
      '|' :: subRangeSep1 fuel (afterSep.drop w2)
    | none => c :: subRangeSep1 fuel rest

/-- `re.sub(r"(?<![eE\^])\s*[-–—]\s*(?=[0-9])", "|", normalized)`: the `prev`
argument is the character of the input immediately before the current scan
position (for the lookbehind). -/
def subRangeSep2 : Option Char → ℕ → List Char → List Char
  | _, _, [] => []
  | _, 0, s => s
  | prev, fuel + 1, c :: rest =>
    let s := c :: rest
    let lbOK : Bool :=
      match prev with
      | some p => !(p == 'e' || p == 'E' || p == '^')
      | none => true
    let w := (s.takeWhile pyWs).length
    let attempt : Option ℕ :=
      if lbOK then
        match s.drop w with
        | d :: rest2 =>
          if d = '-' ∨ d = '–' ∨ d = '—' then
            let w2 := (rest2.takeWhile pyWs).length
            match rest2.drop w2 with
            | e :: _ => if isDigitCh e then some (w + 1 + w2) else none
            | [] => none
          else none
        | [] => none
      else none
    match attempt with
    | some k => '|' :: subRangeSep2 (some (s.getD (k - 1) c)) fuel (s.drop k)
    | none => c :: subRangeSep2 (some c) fuel rest

/-- `"…".split("|")`. -/
def splitOnPipe : List Char → List (List Char)
  | [] => [[]]
  | c :: rest =>
    let r := splitOnPipe rest
    if c = '|' then [] :: r
    else
      match r with
      | h :: t => (c :: h) :: t
      | [] => [[c]]

/-- `split_range_parts(text)`. -/
def split_range_parts (text : List Char) : Option (List Char × List Char) :=
  let n1 := subRangeSep1 text.length text
  let n2 := subRangeSep2 none n1.length n1
  let parts := ((splitOnPipe n2).map pyStrip).filter (fun p => !p.isEmpty)
  match parts with
  | [a, b] => some (a, b)
  | _ => none

/-- The result dictionary of `parse_numeric_expression` with the `qualifiers`
sub-dictionary flattened into fields (`approximate` absent ↔ `false`,
`operator` absent ↔ `none`). -/
structure ParsedNum where
  value : ℚ
  range : Option (ℚ × ℚ) := none
  approximate : Bool := false
  operator : Option String := none
deriving DecidableEq, Repr

def OPERATOR_SYMBOLS : List String := ["<=", ">=", "≥", "≤", "<", ">"]

def findOperator (t : List Char) : Option String :=
  OPERATOR_SYMBOLS.find? (fun sym => sym.data.isPrefixOf t)

/-- The leading-qualifier phase of `parse_numeric_expression`: approximate
marker, then comparison operator, each stripped. -/
def stripQualifiers (t : List Char) : Bool × Option String × List Char :=
  let apt : Bool × List Char :=
    match t with
    | c :: rest => if c = '~' ∨ c = '≈' then (true, pyStrip rest) else (false, t)
    | [] => (false, t)
  match findOperator apt.2 with
  | some sym => (apt.1, some sym, pyStrip (apt.2.drop sym.data.length))
  | none => (apt.1, none, apt.2)

/-- `parse_numeric_expression(raw)`. -/
def parse_numeric_expression (raw : String) : Option ParsedNum :=
  let t0 := pyStrip raw.data
  if t0.isEmpty then none else
  let q := stripQualifiers t0
  match split_range_parts q.2.2 with
  | some (p1, p2) =>
    match parse_single_numeric p1, parse_single_numeric p2 with
    | some a, some b =>
      some { value := (min a b + max a b) / 2, range := some (min a b, max a b),
             approximate := q.1, operator := q.2.1 }
    | _, _ => none
  | none =>
    match parse_single_numeric q.2.2 with
    | some v => some { value := v, approximate := q.1, operator := q.2.1 }
    | none => none

example : parse_numeric_expression "2" = some { value := 2 } := by with_unfolding_all rfl
example : parse_numeric_expression "2 - 4" =
    some { value := 3, range := some (2, 4) } := by with_unfolding_all rfl
example : parse_numeric_expression "" = none := by with_unfolding_all rfl
example : parse_numeric_expression "1.2×10^3" = some { value := 1200 } := by with_unfolding_all rfl
example : parse_numeric_expression "2.5×10^-1 to 3.0×10^-1" =
    some { value := 0.275, range := some (0.25, 0.30) } := by with_unfolding_all rfl
example : parse_numeric_expression "~0.12" =
    some { value := 0.12, approximate := true } := by with_unfolding_all rfl
example : parse_numeric_expression "≥500" =
    some { value := 500, operator := some "≥" } := by with_unfolding_all rfl
example : parse_numeric_expression "0.25~0.30" =
    some { value := 0.275, range := some (0.25, 0.30) } := by with_unfolding_all rfl
example : parse_numeric_expression "1.35×10³" = some { value := 1350 } := by with_unfolding_all rfl

/-- One entry of `UNIT_CATALOG`. -/
structure UnitEntry where
  canonical : String
  utype : String
  aliases : List String

def UNIT_CATALOG : List UnitEntry := [
  ⟨"wt.%", "fraction",
    ["wt.%", "wt%", "wtpct", "质量%", "质量百分数", "质量分数", "重量%", "重量分数", "wt.-%", "mass%"]⟩,
  ⟨"%", "percent", ["%", "％", "pct", "percent"]⟩,
  ⟨"at.%", "fraction", ["at.%", "at%", "原子%", "原子分数"]⟩,
  ⟨"°C", "temperature", ["°c", "℃", "degc", "degrees c", "摄氏度", "摄氏"]⟩,
  ⟨"K", "temperature", ["k", "kelvin", "开尔文"]⟩,
  ⟨"°F", "temperature", ["°f", "fahrenheit"]⟩,
  ⟨"min", "time", ["min", "mins", "minute", "minutes", "min.", "分钟"]⟩,
  ⟨"h", "time", ["h", "hr", "hrs", "hour", "hours", "小时"]⟩,
  ⟨"s", "time", ["s", "sec", "secs", "second", "seconds", "秒"]⟩,
  ⟨"MPa", "stress", ["mpa", "兆帕"]⟩,
  ⟨"GPa", "stress", ["gpa", "吉帕"]⟩,
  ⟨"Pa", "stress", ["pa"]⟩,
  ⟨"kPa", "stress", ["kpa"]⟩,
  ⟨"HV", "hardness", ["hv"]⟩,
  ⟨"HRC", "hardness", ["hrc"]⟩,
  ⟨"HB", "hardness", ["hb", "brinell", "布氏"]⟩,
  ⟨"J", "energy", ["j", "焦", "焦耳"]⟩,
  ⟨"kJ", "energy", ["kj", "千焦"]⟩,
  ⟨"kJ/m^2", "energy_density",
    ["kj/m^2", "kj·m^-2", "kj/m2", "kj·m-2", "kj m^-2", "kJ/m²", "kJ·m^-2"]⟩,
  ⟨"J/cm^2", "energy_density", ["j/cm^2", "j·cm^-2", "j/cm2", "J/cm²"]⟩,
  ⟨"°C/s", "cooling_rate", ["°c/s", "℃/s", "k/s"]⟩,
  ⟨"°C/min", "cooling_rate", ["°c/min", "℃/min"]⟩,
  ⟨"μm", "length", ["μm", "um", "micron", "微米"]⟩,
  ⟨"mm", "length", ["mm", "毫米"]⟩]

/-- `"℃"` to `"°c"` (one character becomes two). -/
def celsiusExpand (s : List Char) : List Char :=
  s.flatMap (fun c => if c = '℃' then ['°', 'c'] else [c])

/-- The inline normalization used when building `UNIT_ALIAS_TO_CANONICAL`
(note: unlike `normalize_unit_alias` it does NOT remove ASCII spaces and does
not translate superscripts — it removes only the narrow no-break space U+202F
and the no-break space U+00A0). -/
def normalizeCatalogAlias (alias0 : String) : String :=
  let t := pyStrip alias0.data
  let t := t.map lowerAscii
  let t := celsiusExpand t
  let t := chSub '％' '%' t
  let t := chDel '·' t
  let t := chDel '⋅' t
  let t := chSub '／' '/' t
  let t := chDel '\u202F' t
  let t := chDel '\u00A0' t
  t.asString

def lookupAssoc {α : Type} (l : List (String × α)) (k : String) : Option α :=
  (l.find? (fun p => p.1 == k)).map (fun p => p.2)

/-- Python `dict` insertion: overwrite in place if the key exists, else append. -/
def insertAssoc {α : Type} (l : List (String × α)) (k : String) (v : α) : List (String × α) :=
  if l.any (fun p => p.1 == k) then l.map (fun p => if p.1 == k then (k, v) else p)
  else l ++ [(k, v)]

/-- The building fold for `UNIT_ALIAS_TO_CANONICAL`, keyed by normalized
alias. The Python source iterates over `set(aliases) | {canonical}` whose
order is unspecified; since every alias of one entry maps to the same
canonical name, the resulting dict does not depend on that order, and we use
`aliases ++ [canonical]`. -/
def unitAliasMapBuild : List (String × String) :=
  UNIT_CATALOG.foldl
    (fun m e =>
      (e.aliases ++ [e.canonical]).foldl
        (fun m a =>
          let normalized := normalizeCatalogAlias a
          if normalized.isEmpty then m else insertAssoc m normalized e.canonical)
        m)
    []

/-- Stable insertion for sorting by decreasing key length. -/
def insertByLenDesc (x : String × String) : List (String × String) → List (String × String)
  | [] => [x]
  | y :: rest =>
    if y.1.length > x.1.length then y :: insertByLenDesc x rest else x :: y :: rest

/-- Stable sort by decreasing key length (Python
`sorted(items, key=lambda item: -len(item[0]))`). -/
def sortByLenDesc (l : List (String × String)) : List (String × String) :=
  l.foldr insertByLenDesc []

/-- `UNIT_ALIAS_TO_CANONICAL` written out literally (kept literal so that the
kernel does not replay the building fold at every lookup); the theorem
`unit_alias_map_eq_build` proves it equal to `unitAliasMapBuild`. -/
def UNIT_ALIAS_TO_CANONICAL : List (String × String) := [
  ("wt.%", "wt.%"),
  ("wt%", "wt.%"),
  ("wtpct", "wt.%"),
  ("质量%", "wt.%"),
  ("质量百分数", "wt.%"),
  ("质量分数", "wt.%"),
  ("重量%", "wt.%"),
  ("重量分数", "wt.%"),
  ("wt.-%", "wt.%"),
  ("mass%", "wt.%"),
  ("%", "%"),
  ("pct", "%"),
  ("percent", "%"),
  ("at.%", "at.%"),
  ("at%", "at.%"),
  ("原子%", "at.%"),
  ("原子分数", "at.%"),
  ("°c", "°C"),
  ("degc", "°C"),
  ("degrees c", "°C"),
  ("摄氏度", "°C"),
  ("摄氏", "°C"),
  ("k", "K"),
  ("kelvin", "K"),
  ("开尔文", "K"),
  ("°f", "°F"),
  ("fahrenheit", "°F"),
  ("min", "min"),
  ("mins", "min"),
  ("minute", "min"),
  ("minutes", "min"),
  ("min.", "min"),
  ("分钟", "min"),
  ("h", "h"),
  ("hr", "h"),
  ("hrs", "h"),
  ("hour", "h"),
  ("hours", "h"),
  ("小时", "h"),
  ("s", "s"),
  ("sec", "s"),
  ("secs", "s"),
  ("second", "s"),
  ("seconds", "s"),
  ("秒", "s"),
  ("mpa", "MPa"),
  ("兆帕", "MPa"),
  ("gpa", "GPa"),
  ("吉帕", "GPa"),
  ("pa", "Pa"),
  ("kpa", "kPa"),
  ("hv", "HV"),
  ("hrc", "HRC"),
  ("hb", "HB"),
  ("brinell", "HB"),
  ("布氏", "HB"),
  ("j", "J"),
  ("焦", "J"),
  ("焦耳", "J"),
  ("kj", "kJ"),
  ("千焦", "kJ"),
  ("kj/m^2", "kJ/m^2"),
  ("kjm^-2", "kJ/m^2"),
  ("kj/m2", "kJ/m^2"),
  ("kjm-2", "kJ/m^2"),
  ("kj m^-2", "kJ/m^2"),
  ("kj/m²", "kJ/m^2"),
  ("j/cm^2", "J/cm^2"),
  ("jcm^-2", "J/cm^2"),
  ("j/cm2", "J/cm^2"),
  ("j/cm²", "J/cm^2"),
  ("°c/s", "°C/s"),
  ("k/s", "°C/s"),
  ("°c/min", "°C/min"),
  ("μm", "μm"),
  ("um", "μm"),
  ("micron", "μm"),
  ("微米", "μm"),
  ("mm", "mm"),
  ("毫米", "mm")]

/-- `UNIT_ALIAS_SORTED` (the alias/canonical pairs sorted by decreasing alias
length) written out literally; the theorem `unit_alias_sorted_eq_sort` proves
it equal to `sortByLenDesc UNIT_ALIAS_TO_CANONICAL`. -/
def UNIT_ALIAS_SORTED : List (String × String) := [
  ("fahrenheit", "°F"),
  ("degrees c", "°C"),
  ("percent", "%"),
  ("minutes", "min"),
  ("seconds", "s"),
  ("brinell", "HB"),
  ("kj m^-2", "kJ/m^2"),
  ("kelvin", "K"),
  ("minute", "min"),
  ("second", "s"),
  ("kj/m^2", "kJ/m^2"),
  ("kjm^-2", "kJ/m^2"),
  ("j/cm^2", "J/cm^2"),
  ("jcm^-2", "J/cm^2"),
  ("°c/min", "°C/min"),
  ("micron", "μm"),
  ("wtpct", "wt.%"),
  ("质量百分数", "wt.%"),
  ("wt.-%", "wt.%"),
  ("mass%", "wt.%"),
  ("hours", "h"),
  ("kj/m2", "kJ/m^2"),
  ("kjm-2", "kJ/m^2"),
  ("kj/m²", "kJ/m^2"),
  ("j/cm2", "J/cm^2"),
  ("j/cm²", "J/cm^2"),
  ("wt.%", "wt.%"),
  ("质量分数", "wt.%"),
  ("重量分数", "wt.%"),
  ("at.%", "at.%"),
  ("原子分数", "at.%"),
  ("degc", "°C"),
  ("mins", "min"),
  ("min.", "min"),
  ("hour", "h"),
  ("secs", "s"),
  ("°c/s", "°C/s"),
  ("wt%", "wt.%"),
  ("质量%", "wt.%"),
  ("重量%", "wt.%"),
  ("pct", "%"),
  ("at%", "at.%"),
  ("原子%", "at.%"),
  ("摄氏度", "°C"),
  ("开尔文", "K"),
  ("min", "min"),
  ("hrs", "h"),
  ("sec", "s"),
  ("mpa", "MPa"),
  ("gpa", "GPa"),
  ("kpa", "kPa"),
  ("hrc", "HRC"),
  ("k/s", "°C/s"),
  ("°c", "°C"),
  ("摄氏", "°C"),
  ("°f", "°F"),
  ("分钟", "min"),
  ("hr", "h"),
  ("小时", "h"),
  ("兆帕", "MPa"),
  ("吉帕", "GPa"),
  ("pa", "Pa"),
  ("hv", "HV"),
  ("hb", "HB"),
  ("布氏", "HB"),
  ("焦耳", "J"),
  ("kj", "kJ"),
  ("千焦", "kJ"),
  ("μm", "μm"),
  ("um", "μm"),
  ("微米", "μm"),
  ("mm", "mm"),
  ("毫米", "mm"),
  ("%", "%"),
  ("k", "K"),
  ("h", "h"),
  ("s", "s"),
  ("秒", "s"),
  ("j", "J"),
  ("焦", "J")]

/-- `normalize_unit_alias(unit)` for a present string argument (`None` maps to
`""` and is handled by the callers). The two `.replace` lines for `m²`/`cm²`
and `m⁻²`/`cm⁻²` in the source are kept although they can never fire: the
superscript translation two lines earlier has already rewritten `²` to `^2`. -/
def normalize_unit_alias (unit : String) : String :=
  let t := pyStrip unit.data
  let t := t.map lowerAscii
  let t := superTranslate t
  let t := celsiusExpand t
  let t := chSub '％' '%' t
  let t := chDel '·' t
  let t := chDel '⋅' t
  let t := chSub '／' '/' t
  let t := chDel '\u202F' t
  let t := chDel '\u00A0' t
  let t := replaceSub ('u' :: ['m']) ('μ' :: ['m']) t.length t
  let t := replaceSub ('m' :: ['²']) ('m' :: '^' :: ['2']) t.length t
  let t := replaceSub ('c' :: 'm' :: ['²']) ('c' :: 'm' :: '^' :: ['2']) t.length t
  let t := replaceSub ('m' :: '⁻' :: ['²']) ('m' :: '^' :: '-' :: ['2']) t.length t
  let t := replaceSub ('c' :: 'm' :: '⁻' :: ['²']) ('c' :: 'm' :: '^' :: '-' :: ['2']) t.length t
  let t := chDel ' ' t
  t.asString

/-- `canonicalize_unit(unit)`: exact lookup on the normalized alias, then a
longest-alias-first fallback accepting any recognized alias that the
normalized string starts with. -/
def canonicalize_unit (unit : String) : Option String :=
  if unit.isEmpty then none else
  let normalized := normalize_unit_alias unit
  if normalized.isEmpty then none else
  match lookupAssoc UNIT_ALIAS_TO_CANONICAL normalized with
  | some c => some c
  | none =>
    (UNIT_ALIAS_SORTED.find?
        (fun p => !p.1.isEmpty && p.1.data.isPrefixOf normalized.data)).map (fun p => p.2)

set_option maxRecDepth 10000 in
set_option maxRecDepth 40000 in
example : canonicalize_unit "℃" = some "°C" := by decide
set_option maxRecDepth 40000 in
example : canonicalize_unit "h" = some "h" := by decide
set_option maxRecDepth 40000 in
example : canonicalize_unit "MPA" = some "MPa" := by decide
set_option maxRecDepth 40000 in
example : canonicalize_unit "psi" = none := by decide
set_option maxRecDepth 40000 in
example : canonicalize_unit "degrees c" = none := by decide
set_option maxRecDepth 40000 in
example : canonicalize_unit "kg" = some "K" := by decide
set_option maxRecDepth 40000 in
example : canonicalize_unit "um" = some "μm" := by decide
set_option maxRecDepth 40000 in
example : canonicalize_unit "kJ/m²" = some "kJ/m^2" := by decide

/-! ## Unit converters and field schemas -/

/-- One value of `UNIT_CONVERTERS`: the base unit and the per-source-unit
linear converters to it. -/
structure ConvInfo where
  base : Option String
  to_base : List (String × (ℚ → ℚ))

def UNIT_CONVERTERS : List (String × ConvInfo) := [
  ("temperature", ⟨some "°C",
    [("°C", fun v => v), ("K", fun v => v - 273.15), ("°F", fun v => (v - 32) / 1.8)]⟩),
  ("time", ⟨some "min",
    [("min", fun v => v), ("h", fun v => v * 60.0), ("s", fun v => v / 60.0)]⟩),
  ("stress", ⟨some "MPa",
    [("MPa", fun v => v), ("GPa", fun v => v * 1000.0), ("Pa", fun v => v / 1000000.0),
     ("kPa", fun v => v / 1000.0)]⟩),
  ("fraction", ⟨some "wt.%",
    [("wt.%", fun v => v), ("%", fun v => v), ("at.%", fun v => v)]⟩),
  ("percent", ⟨some "%", [("%", fun v => v)]⟩),
  ("energy_density", ⟨some "kJ/m^2",
    [("kJ/m^2", fun v => v), ("J/cm^2", fun v => v * 10.0)]⟩),
  ("energy", ⟨some "J", [("J", fun v => v), ("kJ", fun v => v * 1000.0)]⟩),
  ("cooling_rate", ⟨some "°C/s",
    [("°C/s", fun v => v), ("°C/min", fun v => v / 60.0)]⟩),
  ("length", ⟨some "μm", [("μm", fun v => v), ("mm", fun v => v * 1000.0)]⟩),
  ("hardness", ⟨none, []⟩)]

/-- Field schema metadata. A Python key that is absent behaves like its falsy
value, so `allowed_units`/`context`/`choices` model "absent" as `[]` and
`unit_type`/`default_unit`/`value_type` as `none`. -/
structure FieldMeta where
  aliases : List String := []
  unit_type : Option String := none
  default_unit : Option String := none
  allowed_units : List String := []
  context : List String := []
  value_type : Option String := none
  choices : List (String × List String) := []

/-- The shared shape of every `COMPOSITION_FIELDS` entry. -/
def fracMeta (aliases : List String) : FieldMeta :=
  { aliases := aliases, unit_type := some "fraction", default_unit := some "wt.%",
    allowed_units := ["wt.%", "%", "at.%"] }

def COMPOSITION_FIELDS : List (String × FieldMeta) := [
  ("C", fracMeta ["C", "carbon", "碳", "C含量", "碳含量"]),
  ("Si", fracMeta ["Si", "silicon", "硅"]),
  ("Mn", fracMeta ["Mn", "manganese", "锰"]),
  ("Cr", fracMeta ["Cr", "chromium", "铬"]),
  ("Mo", fracMeta ["Mo", "molybdenum", "钼"]),
  ("Ni", fracMeta ["Ni", "nickel", "镍"]),
  ("V", fracMeta ["V", "vanadium", "钒"]),
  ("Ti", fracMeta ["Ti", "titanium", "钛"]),
  ("Al", fracMeta ["Al", "aluminium", "铝", "aluminum"]),
  ("Cu", fracMeta ["Cu", "copper", "铜"]),
  ("Nb", fracMeta ["Nb", "niobium", "铌"]),
  ("B", fracMeta ["B", "boron", "硼"]),
  ("P", fracMeta ["P", "phosphorus", "磷"]),
  ("S", fracMeta ["S", "sulfur", "硫"]),
  ("N", fracMeta ["N", "nitrogen", "氮"]),
  ("W", fracMeta ["W", "tungsten", "钨"]),
  ("Co", fracMeta ["Co", "cobalt", "钴"]),
  ("Fe", fracMeta ["Fe", "iron", "铁"])]

def HEAT_TREATMENT_FIELDS : List (String × FieldMeta) := [
  ("austenitizing_temperature",
    { aliases := ["austenitizing temperature", "austenitized at", "奥氏体化温度", "奥氏体化在",
                  "austenitizing"],
      unit_type := some "temperature", default_unit := some "°C",
      allowed_units := ["°C", "K"] }),
  ("austenitizing_time",
    { aliases := ["austenitizing time", "austenitized for", "for", "奥氏体化时间", "保温时间",
                  "保温"],
      unit_type := some "time", default_unit := some "min",
      allowed_units := ["min", "h", "s"],
      context := ["austenitized", "austenitizing", "奥氏体化"] }),
  ("tempering_temperature",
    { aliases := ["tempering temperature", "tempered at", "回火温度", "tempering"],
      unit_type := some "temperature", default_unit := some "°C",
      allowed_units := ["°C", "K"] }),
  ("tempering_time",
    { aliases := ["tempering time", "tempered for", "for", "回火时间"],
      unit_type := some "time", default_unit := some "min",
      allowed_units := ["min", "h", "s"],
      context := ["tempered", "tempering", "回火"] }),
  ("isothermal_temperature",
    { aliases := ["isothermal temperature", "等温温度", "isothermal at"],
      unit_type := some "temperature", default_unit := some "°C",
      allowed_units := ["°C", "K"] }),
  ("isothermal_time",
    { aliases := ["isothermal time", "等温时间", "等温保持", "for"],
      unit_type := some "time", default_unit := some "min",
      allowed_units := ["min", "h", "s"],
      context := ["isothermal", "等温"] }),
  ("cooling_rate",
    { aliases := ["cooling rate", "冷却速度", "冷却速率"],
      unit_type := some "cooling_rate", default_unit := some "°C/s",
      allowed_units := ["°C/s", "°C/min"] }),
  ("quenching_medium",
    { aliases := ["quench", "quenching", "淬火", "冷却介质", "quenched"],
      value_type := some "categorical",
      choices := [("water", ["water", "水淬", "water quench"]),
                  ("oil", ["oil", "油淬", "oil quench"]),
                  ("air", ["air", "空冷", "air cooled"]),
                  ("salt bath", ["salt bath", "盐浴"]),
                  ("polymer", ["polymer", "聚合物"])],
      default_unit := none })]

def MECHANICAL_PROPERTY_FIELDS : List (String × FieldMeta) := [
  ("tensile_strength",
    { aliases := ["tensile strength", "ultimate tensile strength", "UTS", "抗拉强度", "Rm"],
      unit_type := some "stress", default_unit := some "MPa",
      allowed_units := ["MPa", "GPa", "Pa", "kPa"] }),
  ("yield_strength",
    { aliases := ["yield strength", "yield stress", "0.2% proof stress", "Rp0.2", "YS",
                  "Rp0,2", "屈服强度", "屈服点"],
      unit_type := some "stress", default_unit := some "MPa",
      allowed_units := ["MPa", "GPa", "Pa", "kPa"] }),
  ("elongation",
    { aliases := ["elongation", "elongation to failure", "伸长率", "延伸率", "El"],
      unit_type := some "percent", default_unit := some "%",
      allowed_units := ["%"] }),
  ("reduction_of_area",
    { aliases := ["reduction of area", "断面收缩率", "RA"],
      unit_type := some "percent", default_unit := some "%",
      allowed_units := ["%"] }),
  ("hardness",
    { aliases := ["hardness", "硬度", "HV", "HRC", "HB"],
      unit_type := some "hardness", default_unit := none,
      allowed_units := ["HV", "HRC", "HB"] }),
  ("impact_toughness",
    { aliases := ["impact toughness", "冲击韧性", "冲击吸收功", "KV"],
      unit_type := none, default_unit := some "J",
      allowed_units := ["J", "kJ/m^2", "J/cm^2"] }),
  ("fatigue_strength",
    { aliases := ["fatigue strength", "fatigue limit", "疲劳强度", "疲劳极限", "σ-1"],
      unit_type := some "stress", default_unit := some "MPa",
      allowed_units := ["MPa", "GPa", "Pa", "kPa"] })]

/-! ## `normalize_measurement_values` -/

/-- Python truthiness of an `Optional[str]`. -/
def optFalsy (o : Option String) : Bool :=
  match o with
  | some s => s.isEmpty
  | none => true

/-- `%s` interpolation of an `Optional[str]`. -/
def fmtOpt (o : Option String) : String :=
  match o with
  | some s => s
  | none => "None"

/-- `converter = to_base.get(source_unit, lambda v: v)`: the converter chosen
for the source unit, defaulting to the identity. -/
def selectedConverter (tb : List (String × (ℚ → ℚ))) : Option String → ℚ → ℚ
  | some u => (lookupAssoc tb u).getD (fun v => v)
  | none => fun v => v

/-- `normalize_measurement_values(parsed, canonical_unit, raw_unit, meta,
field_name)`. Returns the `(value, unit, range)` triple (or `None`) paired
with the list of warning messages logged during the call. -/
def normalize_measurement_values (parsed : ParsedNum) (canonical_unit raw_unit : Option String)
    (meta : FieldMeta) (field_name : String) :
    Option (ℚ × Option String × Option (ℚ × ℚ)) × List String :=
  if !optFalsy raw_unit ∧ canonical_unit = none then
    (none, ["无法识别字段 " ++ field_name ++ " 的单位: " ++ fmtOpt raw_unit])
  else
  let cu := if optFalsy canonical_unit ∧ !optFalsy meta.default_unit then meta.default_unit
            else canonical_unit
  if !meta.allowed_units.isEmpty ∧ !(match cu with
      | some u => meta.allowed_units.contains u
      | none => false) then
    (none, ["字段 " ++ field_name ++ " 的单位 " ++ fmtOpt cu ++ " 不在允许列表中"])
  else
  match meta.unit_type with
  | some ut =>
    (match lookupAssoc UNIT_CONVERTERS ut with
     | some conv =>
       let base_unit := conv.base
       let source_unit := if optFalsy cu then base_unit else cu
       let inToBase : Bool :=
         match source_unit with
         | some u => conv.to_base.any (fun p => p.1 == u)
         | none => false
       if !inToBase ∧ source_unit ≠ base_unit then
         (none, ["字段 " ++ field_name ++ " 的单位无法转换: " ++
                 (if !optFalsy raw_unit then fmtOpt raw_unit else fmtOpt cu)])
       else
         let converter : ℚ → ℚ := selectedConverter conv.to_base source_unit
         (some (converter parsed.value, base_unit,
                parsed.range.map (fun r => (converter r.1, converter r.2))), [])
     | none => (some (parsed.value, if optFalsy cu then meta.default_unit else cu, parsed.range), []))
  | none => (some (parsed.value, if optFalsy cu then meta.default_unit else cu, parsed.range), [])

example :
    normalize_measurement_values { value := 2 } (some "h") (some "h")
      { unit_type := some "time", default_unit := some "min",
        allowed_units := ["min", "h", "s"] } "tempering_time" =
    (some (120, some "min", none), []) := by with_unfolding_all rfl

example :
    normalize_measurement_values { value := 300 } (some "HV") (some "HV")
      { unit_type := some "hardness", default_unit := none,
        allowed_units := ["HV", "HRC", "HB"] } "hardness" =
    (none, ["字段 hardness 的单位无法转换: HV"]) := by with_unfolding_all rfl

example :
    normalize_measurement_values { value := 500 } none (some "psi")
      { unit_type := some "stress", default_unit := some "MPa",
        allowed_units := ["MPa", "GPa", "Pa", "kPa"] } "yield_strength" =
    (none, ["无法识别字段 yield_strength 的单位: psi"]) := by with_unfolding_all rfl

/-! ## Alias matching (`build_alias_pattern` / `find_alias_matches`) -/

/-- The three shapes of pattern produced by `build_alias_pattern`:
a single ASCII letter gets the lookarounds `(?<![A-Za-z0-9°])…(?![A-Za-z0-9])`,
a purely alphanumeric alias gets `(?<![A-Za-z0-9])…(?![A-Za-z0-9])`, and
anything else is matched literally (`re.escape`). -/
inductive AliasKind
  | singleLetter
  | alnumWord
  | literal
deriving DecidableEq, Repr

def build_alias_kind (alias0 : String) : AliasKind :=
  match alias0.data with
  | [c] => if isAlphaCh c then .singleLetter
           else if isAlnumCh c then .alnumWord else .literal
  | l => if !l.isEmpty && l.all isAlnumCh then .alnumWord else .literal

/-- Case-insensitive prefix test (`re.IGNORECASE` over ASCII). -/
def ciPrefix : List Char → List Char → Bool
  | [], _ => true
  | _ :: _, [] => false
  | p :: ps, c :: cs => lowerAscii p == lowerAscii c && ciPrefix ps cs

/-- The zero-width boundary conditions of the three pattern shapes; `prev` and
`next` are the characters surrounding the candidate occurrence. -/
def aliasBoundaryOK (kind : AliasKind) (prev next : Option Char) : Bool :=
  match kind with
  | .singleLetter =>
    (match prev with | some p => !(isAlnumCh p || p = '°') | none => true) &&
    (match next with | some n => !isAlnumCh n | none => true)
  | .alnumWord =>
    (match prev with | some p => !isAlnumCh p | none => true) &&
    (match next with | some n => !isAlnumCh n | none => true)
  | .literal => true

/-- `finditer` for an alias pattern: leftmost, non-overlapping occurrence
spans; `pos` is the absolute position of the head of the remaining text and
`prev` the character just before it. -/
def findAliasAux (alias0 : List Char) (kind : AliasKind) :
    ℕ → List Char → ℕ → Option Char → List (ℕ × ℕ)
  | _, [], _, _ => []
  | 0, _, _, _ => []
  | fuel + 1, c :: rest, pos, prev =>
    let s := c :: rest
    let n := alias0.length
    if ciPrefix alias0 s && aliasBoundaryOK kind prev ((s.drop n).head?) then
      (pos, pos + n) :: findAliasAux alias0 kind fuel (s.drop n) (pos + n) ((s.take n).getLast?)
    else
      findAliasAux alias0 kind fuel rest (pos + 1) (some c)

def find_alias_matches (text alias0 : String) : List (ℕ × ℕ) :=
  if alias0.isEmpty then [] else
  findAliasAux alias0.data (build_alias_kind alias0) text.data.length text.data 0 none

example : find_alias_matches "980 °C" "C" = [] := by decide
example : find_alias_matches "C: 0.12%" "C" = [(0, 1)] := by decide
example : find_alias_matches "tempered at 200 °C for 2 h" "for" = [(19, 22)] := by decide
example : find_alias_matches "tempered at 200 °C for 2 h" "tempered at" = [(0, 11)] := by decide

/-! ## Numeric span discovery (`NUMBER_TOKEN_REGEX` / `find_numeric_spans`) -/

/-- Alternative 1 of the exponent group of `NUMBER_TOKEN_REGEX`:
`\s*[×xX]\s*10\s*(?:\^|[-−])?\s*[−\-+]?\d+`. -/
def matchSciX10 (s : List Char) : Option ℕ :=
  let w1 := (s.takeWhile pyWs).length
  match s.drop w1 with
  | c :: rest =>
    if c = '×' ∨ c = 'x' ∨ c = 'X' then
      let w2 := (rest.takeWhile pyWs).length
      match rest.drop w2 with
      | '1' :: '0' :: r2 =>
        let w3 := (r2.takeWhile pyWs).length
        let r3 := r2.drop w3
        let caret : ℕ :=
          match r3 with
          | c2 :: _ => if c2 = '^' ∨ c2 = '-' ∨ c2 = '−' then 1 else 0
          | [] => 0
        let r4 := r3.drop caret
        let w4 := (r4.takeWhile pyWs).length
        let r5 := r4.drop w4
        let sg : ℕ :=
          match r5 with
          | c3 :: _ => if c3 = '−' ∨ c3 = '-' ∨ c3 = '+' then 1 else 0
          | [] => 0
        let dn := ((r5.drop sg).takeWhile isDigitCh).length
        if dn = 0 then none
        else some (w1 + 1 + w2 + 2 + w3 + caret + w4 + sg + dn)
      | _ => none
    else none
  | [] => none

/-- Alternative 2 of the exponent group: `[eE][−\-+]?\d+`. -/
def matchSciE (s : List Char) : Option ℕ :=
  match s with
  | c :: rest =>
    if c = 'e' ∨ c = 'E' then
      let sg : ℕ :=
        match rest with
        | c2 :: _ => if c2 = '−' ∨ c2 = '-' ∨ c2 = '+' then 1 else 0
        | [] => 0
      let dn := ((rest.drop sg).takeWhile isDigitCh).length
      if dn = 0 then none else some (1 + sg + dn)
    else none
  | [] => none

def matchSciSuffix (s : List Char) : ℕ :=
  match matchSciX10 s with
  | some k => k
  | none =>
    match matchSciE s with
    | some k => k
    | none => 0

/-- A match of `NUMBER_TOKEN_REGEX` anchored at the head of `s` (the pattern's
sub-terms consume disjoint character classes, so greedy scanning coincides
with Python's backtracking); returns its length. -/
def matchNumberToken (s : List Char) : Option ℕ :=
  let sgn : ℕ :=
    match s with
    | c :: _ => if c = '−' ∨ c = '-' ∨ c = '+' then 1 else 0
    | [] => 0
  let s1 := s.drop sgn
  let d1 := (s1.takeWhile isDigitCh).length
  if d1 = 0 then none else
  let s2 := s1.drop d1
  let fracLen : ℕ :=
    match s2 with
    | c :: rest =>
      if c = '.' ∨ c = ',' then
        (let dn := (rest.takeWhile isDigitCh).length
         if dn = 0 then 0 else 1 + dn)
      else 0
    | [] => 0
  some (sgn + d1 + fracLen + matchSciSuffix (s2.drop fracLen))

def numberTokenSpansAux : ℕ → List Char → ℕ → List (ℕ × ℕ)
  | _, [], _ => []
  | 0, _, _ => []
  | fuel + 1, c :: rest, pos =>
    match matchNumberToken (c :: rest) with
    | some k => (pos, pos + k) :: numberTokenSpansAux fuel ((c :: rest).drop k) (pos + k)
    | none => numberTokenSpansAux fuel rest (pos + 1)

/-- A numeric span: `{"start": …, "end": …, "raw": …}`. -/
structure NumSpan where
  start : ℕ
  stop : ℕ
  raw : String
deriving DecidableEq, Repr

def QUAL_CHARS : List Char := ['≈', '~', '<', '>', '≥', '≤']

/-- The `while prefix_start > 0 and sentence[prefix_start-1] in {…}` loop. -/
def extendQualPrefix (text : List Char) : ℕ → ℕ
  | 0 => 0
  | k + 1 => if QUAL_CHARS.contains (text.getD k ' ') then extendQualPrefix text k else k + 1

def sliceChars (text : List Char) (a b : ℕ) : List Char := (text.drop a).take (b - a)

def RANGE_SEP_SINGLE : List Char := ['-', '–', '—', '~', '～']

/-- `RANGE_SEPARATOR_REGEX.fullmatch`: `\s*(?:-|–|—|~|～|to|至)\s*` against the
whole string (exactly one separator, surrounded by optional whitespace). -/
def rangeSepFullmatch (s : List Char) : Bool :=
  let t := s.dropWhile pyWs
  let afterSep : Option (List Char) :=
    match t with
    | c :: d :: rest =>
      if lowerAscii c = 't' ∧ lowerAscii d = 'o' then some rest
      else if c = '至' ∨ RANGE_SEP_SINGLE.contains c then some (d :: rest) else none
    | [c] => if c = '至' ∨ RANGE_SEP_SINGLE.contains c then some [] else none
    | [] => none
  match afterSep with
  | some r => (r.dropWhile pyWs).isEmpty
  | none => false

/-- The pairwise combining loop of `find_numeric_spans`. -/
def combineSpans (sentence : List Char) : List NumSpan → List NumSpan
  | [] => []
  | [a] => [a]
  | a :: b :: rest =>
    if rangeSepFullmatch (sliceChars sentence a.stop b.start) then
      ⟨a.start, b.stop, (sliceChars sentence a.start b.stop).asString⟩ :: combineSpans sentence rest
    else
      a :: combineSpans sentence (b :: rest)

def find_numeric_spans (sentence : String) : List NumSpan :=
  let chars := sentence.data
  let spans := (numberTokenSpansAux chars.length chars 0).map (fun se =>
    let ps := extendQualPrefix chars se.1
    NumSpan.mk ps se.2 ((sliceChars chars ps se.2).asString))
  combineSpans chars spans

example : find_numeric_spans "tempered at 200 °C for 2 h" =
    [⟨12, 15, "200"⟩, ⟨23, 24, "2"⟩] := by decide
example : find_numeric_spans "0.25~0.30" = [⟨0, 4, "0.25"⟩, ⟨4, 9, "~0.30"⟩] := by decide
example : find_numeric_spans "0.25 ~ 0.30" = [⟨0, 11, "0.25 ~ 0.30"⟩] := by decide
example : find_numeric_spans "2.5×10^-1 to 3.0×10^-1 wt.%" =
    [⟨0, 22, "2.5×10^-1 to 3.0×10^-1"⟩] := by decide

/-! ## `select_closest_span` -/

def absDiff (a b : ℕ) : ℕ := max a b - min a b

/-- `min(|aliasStart−spanStart|, |aliasEnd−spanEnd|)` plus the 10000 penalty
for spans that start before the alias ends. -/
def spanDistance (alias_start alias_end : ℕ) (sp : NumSpan) : ℕ :=
  min (absDiff alias_start sp.start) (absDiff alias_end sp.stop) +
  (if sp.start ≥ alias_end then 0 else 10000)

def selectAux (alias_start alias_end : ℕ) (used : List ℕ) :
    List NumSpan → ℕ → Option (ℕ × ℕ) → Option ℕ
  | [], _, best => best.map (fun b => b.1)
  | sp :: rest, idx, best =>
    if used.contains idx then selectAux alias_start alias_end used rest (idx + 1) best
    else
      let d := spanDistance alias_start alias_end sp
      match best with
      | some (bi, bd) =>
        if d < bd then selectAux alias_start alias_end used rest (idx + 1) (some (idx, d))
        else selectAux alias_start alias_end used rest (idx + 1) (some (bi, bd))
      | none => selectAux alias_start alias_end used rest (idx + 1) (some (idx, d))

def select_closest_span (alias_start alias_end : ℕ) (spans : List NumSpan) (used : List ℕ) :
    Option ℕ :=
  selectAux alias_start alias_end used spans 0 none

/-! ## `detect_unit_for_span` -/

/-- The character class of `UNIT_TOKEN`. Its optional second group `/…` adds
nothing beyond this class (the class itself contains `/`), so a `UNIT_TOKEN`
match is exactly a maximal run of these characters. -/
def unitChar (c : Char) : Bool :=
  isAlphaCh c || c = '°' || c = '/' || c = '%' || c = 'μ' || c = '·' || c = '^' ||
  isDigitCh c || c = '.' || c = '-'

/-- `detect_unit_for_span(sentence, start, end, meta)` returning
`(canonical_unit, raw_unit)`. -/
def detect_unit_for_span (sentence : List Char) (start stop : ℕ) (meta : FieldMeta) :
    Option String × Option String :=
  let allowedOK : String → Bool := fun c =>
    meta.allowed_units.isEmpty || meta.allowed_units.contains c ||
    meta.default_unit == some c
  let after := sentence.drop stop
  let runA := ((after.dropWhile pyWs).takeWhile unitChar)
  if !runA.isEmpty then
    let raw := runA.asString
    match canonicalize_unit raw with
    | some c => if allowedOK c then (some c, some raw) else (none, some raw)
    | none => (none, some raw)
  else
    let before := dropTrailingWs (sentence.take start)
    let runB := (before.reverse.takeWhile unitChar).reverse
    if !runB.isEmpty then
      let raw := runB.asString
      match canonicalize_unit raw with
      | some c => if allowedOK c then (some c, some raw) else (none, some raw)
      | none => (none, some raw)
    else (meta.default_unit, none)

/-! ## Sentence context and Measurement records -/

def SENTENCE_DELIMITERS : List Char := ['。', '.', '!', '！', '?', '？', ';', '；', '\n']

def findCharFrom (text : List Char) (d : Char) (start : ℕ) : Option ℕ :=
  ((text.drop start).findIdx? (fun c => c = d)).map (fun i => start + i)

def rfindCharBefore (text : List Char) (d : Char) (before : ℕ) : Option ℕ :=
  let t := text.take before
  (t.reverse.findIdx? (fun c => c = d)).map (fun i => t.length - 1 - i)

/-- `get_sentence_context(text, start, end)`. -/
def get_sentence_context (text : List Char) (start stop : ℕ) : String :=
  let begin0 := SENTENCE_DELIMITERS.foldl
    (fun b d =>
      match rfindCharBefore text d start with
      | some pos => if pos + 1 > b then pos + 1 else b
      | none => b) 0
  let finish := SENTENCE_DELIMITERS.foldl
    (fun f d =>
      match findCharFrom text d stop with
      | some pos => if pos < f then pos else f
      | none => f) text.length
  let snippet := pyStrip (sliceChars text begin0 finish)
  if !snippet.isEmpty then snippet.asString
  else (pyStrip (sliceChars text (start - 50) (min text.length (stop + 50)))).asString

/-- A Python value that is either a float or a (categorical) string. -/
inductive PyVal
  | num (q : ℚ)
  | str (s : String)
deriving DecidableEq, Repr

/-- A `Measurement`, with the `metadata` dictionary flattened into the
`method`/`sentence`/`trigger`/`approximate`/`operator` fields (the `page`
entry is always `None` and is omitted). -/
structure Meas where
  field : String
  value : PyVal
  unit : Option String
  raw : String
  method : String
  sentence : String
  trigger : String
  approximate : Bool := false
  operator : Option String := none
  range : Option (ℚ × ℚ) := none
deriving DecidableEq, Repr

/-! ## `extract_categorical_measurement` and `extract_schema_from_sentences` -/

/-- The nested first-hit search over `choices`; returns the canonical category
and the surface token that matched. -/
def findChoice (choices : List (String × List String)) (lowered : List Char) :
    Option (String × String) :=
  match choices with
  | [] => none
  | (canon, toks) :: rest =>
    match toks.find? (fun tok => containsSub (tok.data.map lowerAscii) lowered) with
    | some tok => some (canon, tok)
    | none => findChoice rest lowered

def extract_categorical_measurement (sentence : String) (field0 : String) (meta : FieldMeta)
    (method_label : String) (alias_matches : List (String × ℕ × ℕ)) :
    Option Meas × List String :=
  match findChoice meta.choices (sentence.data.map lowerAscii) with
  | some (canon, tok) =>
    (some { field := field0, value := .str canon, unit := meta.default_unit, raw := tok,
            method := method_label, sentence := (pyStrip sentence.data).asString,
            trigger := (alias_matches.head?.map (fun am => am.1)).getD "" }, [])
  | none => (none, ["未能从句子中解析 " ++ field0 ++ " 的分类取值: " ++ sentence])

/-- The state threaded through the per-alias loop of
`extract_schema_from_sentences`. -/
structure ExtState where
  used : List ℕ
  meas : List Meas
  logs : List String
deriving Repr

/-- The body of the `for alias, span in alias_matches` loop. -/
def processAlias (sentence : String) (field0 : String) (meta : FieldMeta) (method_label : String)
    (spans : List NumSpan) (st : ExtState) (am : String × ℕ × ℕ) : ExtState :=
  match select_closest_span am.2.1 am.2.2 spans st.used with
  | none => st
  | some idx =>
    let used' := st.used ++ [idx]
    let sp := spans.getD idx ⟨0, 0, ""⟩
    match parse_numeric_expression sp.raw with
    | none => { used := used', meas := st.meas,
                logs := st.logs ++ ["无法解析数值表达式: " ++ sp.raw] }
    | some parsed =>
      let du := detect_unit_for_span sentence.data sp.start sp.stop meta
      let norm := normalize_measurement_values parsed du.1 du.2 meta field0
      match norm.1 with
      | none => { used := used', meas := st.meas, logs := st.logs ++ norm.2 }
      | some (value, base_unit, range_info) =>
        { used := used',
          meas := st.meas ++ [{
            field := field0, value := .num value, unit := base_unit,
            raw := (pyStrip sp.raw.data).asString, method := method_label,
            sentence := (pyStrip sentence.data).asString, trigger := am.1,
            approximate := parsed.approximate, operator := parsed.operator,
            range := range_info }],
          logs := st.logs ++ norm.2 }

/-- What one sentence contributes to one schema field: the appended
measurements and the logged warnings, in order. -/
def sentenceFieldMeasurements (sentence : String) (field0 : String) (meta : FieldMeta)
    (method_label : String) : List Meas × List String :=
  if (pyStrip sentence.data).isEmpty then ([], []) else
  let lowered := sentence.data.map lowerAscii
  if !meta.context.isEmpty ∧
     !(meta.context.any (fun kw => containsSub (kw.data.map lowerAscii) lowered)) then ([], [])
  else
  let alias_matches := meta.aliases.flatMap
    (fun a => (find_alias_matches sentence a).map (fun sp => (a, sp)))
  if alias_matches.isEmpty then ([], []) else
  if meta.value_type = some "categorical" then
    match extract_categorical_measurement sentence field0 meta method_label alias_matches with
    | (some m, logs) => ([m], logs)
    | (none, logs) => ([], logs)
  else
  let spans := find_numeric_spans sentence
  if spans.isEmpty then ([], ["未能在句子中发现数值: " ++ sentence]) else
  let final := alias_matches.foldl (processAlias sentence field0 meta method_label spans)
    { used := [], meas := [], logs := [] }
  (final.meas, final.logs)

/-- `extract_schema_from_sentences(sentences, schema, method_label)`.
The Python loop is sentence-outer and field-inner, appending to a results
dictionary pre-seeded with every schema field; since appends for different
fields are independent, the per-field result equals the concatenation of the
per-sentence contributions, which is how it is assembled here. The warnings
are collected in the source's order (sentence-outer, field-inner). -/
def extract_schema_from_sentences (sentences : List String) (schema : List (String × FieldMeta))
    (method_label : String) : List (String × List Meas) × List String :=
  (schema.map (fun fm =>
     (fm.1, sentences.flatMap (fun s => (sentenceFieldMeasurements s fm.1 fm.2 method_label).1))),
   sentences.flatMap (fun s =>
     schema.flatMap (fun fm => (sentenceFieldMeasurements s fm.1 fm.2 method_label).2)))

/-! ## `VALUE_TOKEN_PATTERN` and the composition extractor -/

/-- One range separator `(?:-|–|—|~|～|to|至)` at the head of `s`
(case-insensitive `to`); shared by `VALUE_TOKEN_PATTERN`. -/
def valueSepAt (s : List Char) : Option ℕ :=
  match s with
  | c :: d :: _ =>
    if lowerAscii c = 't' ∧ lowerAscii d = 'o' then some 2
    else if c = '至' ∨ RANGE_SEP_SINGLE.contains c then some 1 else none
  | [c] => if c = '至' ∨ RANGE_SEP_SINGLE.contains c then some 1 else none
  | [] => none

/-- Alternative 1 of `VALUE_TOKEN_PATTERN`'s exponent group:
`\s*[×xX]\s*10\s*(?:\^|[-−])?\s*-?\d+` (unlike `NUMBER_TOKEN_REGEX`, the
final sign class here is only the ASCII `-`). -/
def valueSciX10 (s : List Char) : Option ℕ :=
  let w1 := (s.takeWhile pyWs).length
  match s.drop w1 with
  | c :: rest =>
    if c = '×' ∨ c = 'x' ∨ c = 'X' then
      let w2 := (rest.takeWhile pyWs).length
      match rest.drop w2 with
      | '1' :: '0' :: r2 =>
        let w3 := (r2.takeWhile pyWs).length
        let r3 := r2.drop w3
        let caret : ℕ :=
          match r3 with
          | c2 :: _ => if c2 = '^' ∨ c2 = '-' ∨ c2 = '−' then 1 else 0
          | [] => 0
        let r4 := r3.drop caret
        let w4 := (r4.takeWhile pyWs).length
        let r5 := r4.drop w4
        let sg : ℕ := match r5 with | '-' :: _ => 1 | _ => 0
        let dn := ((r5.drop sg).takeWhile isDigitCh).length
        if dn = 0 then none
        else some (w1 + 1 + w2 + 2 + w3 + caret + w4 + sg + dn)
      | _ => none
    else none
  | [] => none

def valueSciSuffix (s : List Char) : ℕ :=
  match valueSciX10 s with
  | some k => k
  | none =>
    match matchSciE s with
    | some k => k
    | none => 0

/-- `-?\d+(?:[.,]\d+)?(?:sci)?`, the numeric core repeated throughout
`VALUE_TOKEN_PATTERN`. -/
def matchValueNumCore (s : List Char) : Option ℕ :=
  let sgn : ℕ := match s with | '-' :: _ => 1 | _ => 0
  let s1 := s.drop sgn
  let d1 := (s1.takeWhile isDigitCh).length
  if d1 = 0 then none else
  let s2 := s1.drop d1
  let fracLen : ℕ :=
    match s2 with
    | c :: rest =>
      if c = '.' ∨ c = ',' then
        (let dn := (rest.takeWhile isDigitCh).length
         if dn = 0 then 0 else 1 + dn)
      else 0
    | [] => 0
  some (sgn + d1 + fracLen + valueSciSuffix (s2.drop fracLen))

/-- The trailing `(?:\s*(?:-|–|—|~|～|to|至)\s*-?\d+…)*` star: total length it
consumes (each item is attempted atomically; a partial item consumes
nothing). -/
def valueRangeItems : ℕ → List Char → ℕ
  | 0, _ => 0
  | fuel + 1, s =>
    let w := (s.takeWhile pyWs).length
    match valueSepAt (s.drop w) with
    | some k =>
      let afterSep := (s.drop w).drop k
      let w2 := (afterSep.takeWhile pyWs).length
      match matchValueNumCore (afterSep.drop w2) with
      | some n =>
        let consumed := w + k + w2 + n
        consumed + valueRangeItems fuel (s.drop consumed)
      | none => 0
    | none => 0

/-- A match of `VALUE_TOKEN_PATTERN` anchored at the head of `s`
(`[<≥≤>~≈]?\s*` then the numeric core then the range star); its length. -/
def matchValueToken (s : List Char) : Option ℕ :=
  let q : ℕ :=
    match s with
    | c :: _ => if QUAL_CHARS.contains c then 1 else 0
    | [] => 0
  let s0 := s.drop q
  let w := (s0.takeWhile pyWs).length
  match matchValueNumCore (s0.drop w) with
  | some n =>
    let head := q + w + n
    some (head + valueRangeItems s.length (s.drop head))
  | none => none

/-- `(?P<value>VALUE_TOKEN_PATTERN)(?:\s*(?P<unit>UNIT_TOKEN))?` anchored at
the head of `s`: value length, unit group, total match length. -/
def matchValueUnitAt (s : List Char) : Option (ℕ × Option String × ℕ) :=
  match matchValueToken s with
  | some vlen =>
    let after := s.drop vlen
    let w := (after.takeWhile pyWs).length
    let run := (after.drop w).takeWhile unitChar
    if run.isEmpty then some (vlen, none, vlen)
    else some (vlen, some run.asString, vlen + w + run.length)
  | none => none

/-- `re.search` of the value/unit pattern: the leftmost match, as
`(start, valueLen, unit)`. -/
def searchValueUnit : ℕ → List Char → ℕ → Option (ℕ × ℕ × Option String)
  | _, [], _ => none
  | 0, _, _ => none
  | fuel + 1, c :: rest, pos =>
    match matchValueUnitAt (c :: rest) with
    | some (vlen, u, _) => some (pos, vlen, u)
    | none => searchValueUnit fuel rest (pos + 1)

/-- `re.finditer` of the value/unit pattern: all leftmost non-overlapping
matches, as `(start, valueLen, unit)`. -/
def allValueUnitMatches : ℕ → List Char → ℕ → List (ℕ × ℕ × Option String)
  | _, [], _ => []
  | 0, _, _ => []
  | fuel + 1, c :: rest, pos =>
    match matchValueUnitAt (c :: rest) with
    | some (vlen, u, total) =>
      (pos, vlen, u) :: allValueUnitMatches fuel ((c :: rest).drop total) (pos + total)
    | none => allValueUnitMatches fuel rest (pos + 1)

/-- State threaded through one element's occurrence loop of
`extract_composition` (`seen_spans` is kept as an insertion-ordered list, used
only through membership). -/
structure CompState where
  seen : List (ℕ × ℕ)
  meas : List Meas
  logs : List String
deriving Repr

/-- The shared candidate-processing body of `extract_composition` (identical
for the forward and the backward search). -/
def compositionCandidate (text : List Char) (element : String) (meta : FieldMeta)
    (alias0 : String) (value_start value_end : ℕ) (raw_value : String)
    (raw_unit : Option String) (st : CompState) : CompState :=
  if st.seen.contains (value_start, value_end) then st else
  let seen' := st.seen ++ [(value_start, value_end)]
  match parse_numeric_expression raw_value with
  | none => { seen := seen', meas := st.meas, logs := st.logs }
  | some parsed =>
    let canonical :=
      match raw_unit with
      | some u => if u.isEmpty then none else canonicalize_unit u
      | none => none
    let norm := normalize_measurement_values parsed canonical raw_unit meta element
    match norm.1 with
    | none => { seen := seen', meas := st.meas, logs := st.logs ++ norm.2 }
    | some (value, base_unit, range_info) =>
      { seen := seen',
        meas := st.meas ++ [{
          field := element, value := .num value, unit := base_unit,
          raw := (pyStrip raw_value.data).asString, method := "rule_regex",
          sentence := get_sentence_context text value_start value_end,
          trigger := alias0,
          approximate := parsed.approximate, operator := parsed.operator,
          range := range_info }],
        logs := st.logs ++ norm.2 }

/-- Processing of one alias occurrence: the 80-character window after it
(leftmost match) and the 80-character window before it (last match). -/
def compositionOccurrence (text : List Char) (element : String) (meta : FieldMeta)
    (alias0 : String) (st : CompState) (occ : ℕ × ℕ) : CompState :=
  let start := occ.1
  let stop := occ.2
  let tl := sliceChars text stop (stop + 80)
  let st1 :=
    match searchValueUnit tl.length tl 0 with
    | some (pos, vlen, u) =>
      compositionCandidate text element meta alias0 (stop + pos) (stop + pos + vlen)
        ((sliceChars tl pos (pos + vlen)).asString) u st
    | none => st
  let hd := sliceChars text (start - 80) start
  match (allValueUnitMatches hd.length hd 0).getLast? with
  | some (pos, vlen, u) =>
    compositionCandidate text element meta alias0
      (start - (hd.length - pos)) (start - (hd.length - (pos + vlen)))
      ((sliceChars hd pos (pos + vlen)).asString) u st1
  | none => st1

def compositionElement (text : String) (element : String) (meta : FieldMeta) : CompState :=
  meta.aliases.foldl
    (fun st a => (find_alias_matches text a).foldl
      (compositionOccurrence text.data element meta a) st)
    { seen := [], meas := [], logs := [] }

/-- `extract_composition(text)`: the per-element measurement lists (in
`COMPOSITION_FIELDS` order) paired with all logged warnings. -/
def extract_composition (text : String) : List (String × List Meas) × List String :=
  let per := COMPOSITION_FIELDS.map (fun fm => (fm.1, compositionElement text fm.1 fm.2))
  (per.map (fun p => (p.1, p.2.meas)), per.flatMap (fun p => p.2.logs))

/-! ## `measurement_key` and `merge_measurement_groups` -/

/-- Python 3 `round(x)` (round half to even). -/
def roundHalfEvenInt (x : ℚ) : ℤ :=
  let f := ⌊x⌋
  let r := x - f
  if r < 1 / 2 then f
  else if r > 1 / 2 then f + 1
  else if f % 2 = 0 then f else f + 1

/-- Python `round(x, 6)`. -/
def round6 (x : ℚ) : ℚ := (roundHalfEvenInt (x * 1000000) : ℚ) / 1000000

/-- `round(value, 6)` is applied only to floats; categorical strings are used
as-is. -/
def keyVal (v : PyVal) : PyVal :=
  match v with
  | .num q => .num (round6 q)
  | .str s => .str s

/-- `measurement_key(measurement)`. -/
def measurement_key (m : Meas) :
    String × PyVal × Option String × Option (ℚ × ℚ) × String :=
  (m.field, keyVal m.value, m.unit, m.range.map (fun r => (round6 r.1, round6 r.2)), m.raw)

def hasKeyAssoc {α : Type} (l : List (String × α)) (k : String) : Bool :=
  l.any (fun p => p.1 == k)

/-- `merged.setdefault(field, [])`. -/
def setdefaultAssoc (d : List (String × List Meas)) (k : String) : List (String × List Meas) :=
  if hasKeyAssoc d k then d else d ++ [(k, [])]

def updateAssoc (d : List (String × List Meas)) (k : String) (f : List Meas → List Meas) :
    List (String × List Meas) :=
  d.map (fun p => if p.1 == k then (p.1, f p.2) else p)

/-- One merge step on a per-field list: append `m` unless a measurement with
the same `measurement_key` is already present. -/
def addIfNew (cur : List Meas) (m : Meas) : List Meas :=
  if cur.any (fun e => decide (measurement_key e = measurement_key m)) then cur
  else cur ++ [m]

/-- Append `m` under `k` unless a measurement with the same key is already
there. -/
def addMeasurement (d : List (String × List Meas)) (k : String) (m : Meas) :
    List (String × List Meas) :=
  updateAssoc d k (fun cur => addIfNew cur m)

/-- The body of the `for field, measurements in group.items()` loop. -/
def mergeFieldEntry (merged : List (String × List Meas)) (e : String × List Meas) :
    List (String × List Meas) :=
  if e.2.isEmpty then merged
  else e.2.foldl (fun d m => addMeasurement d e.1 m) (setdefaultAssoc merged e.1)

/-- `merge_measurement_groups(*groups)`; each group is an insertion-ordered
dictionary (association list with distinct keys). The source's
`if not measurement: continue` guard can never fire (a measurement dictionary
is never empty) and is omitted. -/
def merge_measurement_groups (groups : List (List (String × List Meas))) :
    List (String × List Meas) :=
  groups.foldl (fun merged g => g.foldl mergeFieldEntry merged) []

/-- "Concatenate, keeping only the first occurrence of each distinct
measurement key, preserving order" — the claim's description of the per-field
merge result. -/
def firstOccurrences : List Meas → List Meas
  | [] => []
  | m :: rest =>
    m :: firstOccurrences (rest.filter (fun e => !decide (measurement_key e = measurement_key m)))
termination_by l => l.length
decreasing_by
  simp only [List.length_cons]
  exact Nat.lt_succ_of_le (List.length_filter_le _ _)

/-! # Theorems -/

/-! ## Generic lemmas about the association-list and sorting helpers -/

theorem lookupAssoc_eq_some_mem {α : Type} {l : List (String × α)} {k : String} {v : α}
    (h : lookupAssoc l k = some v) : (k, v) ∈ l := by
  unfold lookupAssoc at h
  cases hf : l.find? (fun p => p.1 == k) with
  | none => simp [hf] at h
  | some p =>
    simp only [hf] at h
    have hp := List.find?_some hf
    have hm := List.mem_of_find?_eq_some hf
    have h1 : p.1 = k := by simpa using hp
    have h2 : p.2 = v := by simpa using h
    cases p
    simp_all

theorem mem_insertByLenDesc {x y : String × String} {l : List (String × String)} :
    x ∈ insertByLenDesc y l ↔ x = y ∨ x ∈ l := by
  induction l with
  | nil => simp [insertByLenDesc]
  | cons z rest ih =>
    rw [insertByLenDesc]
    split
    · rw [List.mem_cons, ih, List.mem_cons]
      tauto
    · rw [List.mem_cons, List.mem_cons]

theorem mem_sortByLenDesc (x : String × String) (l : List (String × String)) :
    x ∈ sortByLenDesc l ↔ x ∈ l := by
  induction l with
  | nil => simp [sortByLenDesc]
  | cons y rest ih =>
    simp only [sortByLenDesc, List.foldr] at *
    rw [mem_insertByLenDesc, ih]
    simp

set_option maxRecDepth 10000 in
/-- The literal `UNIT_ALIAS_TO_CANONICAL` equals the alias table built by the
source's dictionary-construction fold over `UNIT_CATALOG`. -/
theorem unit_alias_map_eq_build : UNIT_ALIAS_TO_CANONICAL = unitAliasMapBuild := by decide

set_option maxRecDepth 10000 in
/-- The literal `UNIT_ALIAS_SORTED` equals the length-descending sort of
`UNIT_ALIAS_TO_CANONICAL` (`sorted(..., key=lambda item: -len(item[0]))`). -/
theorem unit_alias_sorted_eq_sort :
    UNIT_ALIAS_SORTED = sortByLenDesc UNIT_ALIAS_TO_CANONICAL := by decide

/-! ## C1 -/

set_option maxRecDepth 100000 in
/-- Claim C1. The claim states that a hardness alias paired with an allowed
hardness unit (HV/HRC/HB) yields a Measurement carrying the parsed value
unchanged under the canonical unit spelling. The code contradicts this (code
bug): the hardness entry of `UNIT_CONVERTERS` has `base = None` and an empty
`to_base`, so the convertibility guard in `normalize_measurement_values`
rejects every hardness candidate. At the failing input
"hardness reached 300 HV" the sentence extractor emits no hardness
Measurement at all, and the candidate (value 300, canonical unit "HV") is
discarded with the conversion warning. -/
theorem C1_hardness_candidates_all_discarded :
    lookupAssoc (extract_schema_from_sentences ["hardness reached 300 HV"]
      MECHANICAL_PROPERTY_FIELDS "rule_regex").1 "hardness" = some [] ∧
    normalize_measurement_values { value := 300 } (some "HV") (some "HV")
      ((lookupAssoc MECHANICAL_PROPERTY_FIELDS "hardness").getD {}) "hardness" =
    (none, ["字段 hardness 的单位无法转换: HV"]) :=
  ⟨by with_unfolding_all rfl, by with_unfolding_all rfl⟩

/-! ## C2 -/

set_option maxRecDepth 100000 in
/-- Claim C2, counterexample: on the input "C 150" the composition extractor
emits a C Measurement whose value 150 violates the claimed plausibility bound
0 < v ≤ 100 — the code contains no such bound. -/
theorem C2_counterexample :
    (((lookupAssoc (extract_composition "C 150").1 "C").getD []).all
      (fun m => match m.value with
        | .num q => decide (0 < q ∧ q ≤ 100)
        | .str _ => true)) = false := by
  with_unfolding_all rfl

set_option maxRecDepth 100000 in
/-- Claim C2 as amended: `extract_composition` applies no plausibility bound;
a parsed candidate with a recognized (or absent) unit is emitted even when its
value lies outside (0, 100]: "C 150" yields a C Measurement with value 150
(bounds are enforced only by the downstream quality-validation module). -/
theorem C2_no_plausibility_filter :
    lookupAssoc (extract_composition "C 150").1 "C" =
    some [{ field := "C", value := .num 150, unit := some "wt.%", raw := "150",
            method := "rule_regex", sentence := "C 150", trigger := "C" }] := by
  with_unfolding_all rfl

/-! ## C8 -/

set_option maxRecDepth 100000 in
/-- Claim C8: for the sentence "tempered at 200 °C for 2 h" the heat-treatment
extractor emits exactly one tempering_time Measurement, with value 120 and
base unit "min" (the hour value 2 converted by the time converter), triggered
by the context-gated generic alias "for". -/
theorem C8_tempering_time_hours_to_minutes :
    lookupAssoc (extract_schema_from_sentences ["tempered at 200 °C for 2 h"]
      HEAT_TREATMENT_FIELDS "rule_regex").1 "tempering_time" =
    some [{ field := "tempering_time", value := .num 120, unit := some "min", raw := "2",
            method := "rule_regex", sentence := "tempered at 200 °C for 2 h",
            trigger := "for" }] := by
  with_unfolding_all rfl

/-! ## C4 -/

set_option maxRecDepth 40000 in
/-- Claim C4, counterexample: "degrees c" is a listed alias of °C (it is a key
of the alias table), yet `canonicalize_unit` returns `None` on it — the
catalog-building normalization keeps its inner ASCII space while
`canonicalize_unit`'s input normalization deletes ASCII spaces, so the lookup
misses; and `canonicalize_unit "kg"` returns `K` although "kg" is not a
recognized alias (longest-alias-prefix fallback), so unknown strings do not
always map to `None`. -/
theorem C4_counterexample :
    (("degrees c", "°C") ∈ UNIT_ALIAS_TO_CANONICAL ∧
      canonicalize_unit "degrees c" = none) ∧
    (canonicalize_unit "kg" = some "K" ∧
      lookupAssoc UNIT_ALIAS_TO_CANONICAL "kg" = none) := by
  refine ⟨⟨by decide, by decide⟩, by decide, by decide⟩

set_option maxRecDepth 40000 in
/-- Claim C4 as amended: canonicalizing any listed alias other than
"degrees c" (whose re-normalized form "degreesc" is no longer a key) yields
that unit's canonical name; and a string canonicalizes to `None` when its
normalized form neither is a recognized alias nor starts with one (otherwise
the longest-alias-prefix fallback answers). -/
theorem C4_roundtrip_amended :
    (∀ p ∈ UNIT_ALIAS_TO_CANONICAL, p.1 ≠ "degrees c" → canonicalize_unit p.1 = some p.2) ∧
    (∀ s : String, lookupAssoc UNIT_ALIAS_TO_CANONICAL (normalize_unit_alias s) = none →
      (∀ p ∈ UNIT_ALIAS_TO_CANONICAL,
        p.1.data.isPrefixOf (normalize_unit_alias s).data = false) →
      canonicalize_unit s = none) := by
  constructor
  · decide
  · intro s h1 h2
    by_cases hs : s.isEmpty
    · simp [canonicalize_unit, hs]
    · by_cases hn : (normalize_unit_alias s).isEmpty
      · simp [canonicalize_unit, hs, hn]
      · have hfind : (UNIT_ALIAS_SORTED.find?
            (fun p => !p.1.isEmpty && p.1.data.isPrefixOf (normalize_unit_alias s).data)) =
            none := by
          rw [List.find?_eq_none]
          intro x hx
          have hx' : x ∈ UNIT_ALIAS_TO_CANONICAL := by
            rw [unit_alias_sorted_eq_sort] at hx
            exact (mem_sortByLenDesc _ _).1 hx
          simp [h2 x hx']
        simp [canonicalize_unit, hs, hn, h1, hfind]

set_option maxRecDepth 40000 in
/-- Witness for C4: the round-trip conclusion at the listed alias "hv", and
the `None` conclusion at the unrecognized string "psi". -/
theorem C4_roundtrip_amended_witness :
    canonicalize_unit "hv" = some "HV" ∧ canonicalize_unit "psi" = none :=
  ⟨C4_roundtrip_amended.1 ("hv", "HV") (by decide) (by decide),
   C4_roundtrip_amended.2 "psi" (by decide) (by decide)⟩

/-! ## C3 -/

set_option maxRecDepth 100000 in
/-- Claim C3: for "Yield strength was measured as 500 psi" no yield_strength
Measurement is emitted and a logged warning mentions "psi"; and in general,
whenever raw unit text is present next to a matched value but could not be
canonicalized, `normalize_measurement_values` discards the candidate with the
unrecognized-unit warning instead of falling back to the field's default
unit. -/
theorem C3_unrecognized_unit_discarded :
    (lookupAssoc (extract_schema_from_sentences ["Yield strength was measured as 500 psi"]
        MECHANICAL_PROPERTY_FIELDS "rule_regex").1 "yield_strength" = some [] ∧
     (extract_schema_from_sentences ["Yield strength was measured as 500 psi"]
        MECHANICAL_PROPERTY_FIELDS "rule_regex").2.any
       (fun msg => containsSub "psi".data msg.data) = true) ∧
    (∀ (parsed : ParsedNum) (u : String) (meta : FieldMeta) (fieldName : String),
      u.isEmpty = false →
      normalize_measurement_values parsed none (some u) meta fieldName =
        (none, ["无法识别字段 " ++ fieldName ++ " 的单位: " ++ u])) := by
  refine ⟨⟨by with_unfolding_all rfl, by with_unfolding_all rfl⟩, ?_⟩
  intro parsed u meta fieldName hu
  simp [normalize_measurement_values, optFalsy, fmtOpt, hu]

/-- Witness for C3: the discard conclusion applied at the concrete candidate
(value 500, raw unit "psi") of the yield_strength field. -/
theorem C3_unrecognized_unit_discarded_witness :
    normalize_measurement_values { value := 500 } none (some "psi")
      ((lookupAssoc MECHANICAL_PROPERTY_FIELDS "yield_strength").getD {}) "yield_strength" =
    (none, ["无法识别字段 yield_strength 的单位: psi"]) :=
  C3_unrecognized_unit_discarded.2 { value := 500 } "psi" _ "yield_strength" rfl

/-! ## C5 -/

/-- Every converter entry in `UNIT_CONVERTERS` is an affine map, hence maps
the midpoint of two values to the midpoint of their images. -/
theorem conv_entries_affine :
    ∀ (t : String) (ci : ConvInfo), (t, ci) ∈ UNIT_CONVERTERS →
    ∀ p ∈ ci.to_base, ∀ x y : ℚ, p.2 ((x + y) / 2) = (p.2 x + p.2 y) / 2 := by
  intro t ci hmem p hp x y
  simp only [UNIT_CONVERTERS] at hmem
  fin_cases hmem <;>
    · simp only at hp
      fin_cases hp <;>
        first
          | (simp only []; ring)
          | simp only []

/-- The converter actually applied (`to_base.get(source_unit, lambda v: v)`)
is affine whenever every entry of the table is. -/
theorem lookupAssoc_getD_affine (tb : List (String × (ℚ → ℚ)))
    (hall : ∀ p ∈ tb, ∀ x y : ℚ, p.2 ((x + y) / 2) = (p.2 x + p.2 y) / 2)
    (u0 : String) (x y : ℚ) :
    (lookupAssoc tb u0).getD (fun v => v) ((x + y) / 2) =
    ((lookupAssoc tb u0).getD (fun v => v) x + (lookupAssoc tb u0).getD (fun v => v) y) / 2 := by
  cases hlk : lookupAssoc tb u0 with
  | none => simp
  | some f =>
    have := hall _ (lookupAssoc_eq_some_mem hlk) x y
    simpa using this

/-- The converter selected by `normalize_measurement_values` is affine
whenever every entry of the table is. -/
theorem selectedConverter_affine (tb : List (String × (ℚ → ℚ)))
    (hall : ∀ p ∈ tb, ∀ x y : ℚ, p.2 ((x + y) / 2) = (p.2 x + p.2 y) / 2)
    (su : Option String) (x y : ℚ) :
    selectedConverter tb su ((x + y) / 2) =
    (selectedConverter tb su x + selectedConverter tb su y) / 2 := by
  cases su with
  | none => simp [selectedConverter]
  | some u0 =>
    simp only [selectedConverter]
    exact lookupAssoc_getD_affine tb hall u0 x y


set_option maxRecDepth 40000 in
/-- Claim C5: whenever `parse_numeric_expression` recognizes a two-sided range
with parseable endpoints a and b, the result carries
`range = (min a b, max a b)` and `value = (min a b + max a b) / 2`; and
whenever `normalize_measurement_values` emits a value together with a range
from a parsed result whose value was the midpoint of its range, the emitted
value is still the midpoint of the emitted range (every unit converter is
affine, so base-unit conversion preserves midpoints). -/
theorem C5_range_midpoint :
    (∀ (raw : String) (p1 p2 : List Char) (a b : ℚ),
       split_range_parts (stripQualifiers (pyStrip raw.data)).2.2 = some (p1, p2) →
       parse_single_numeric p1 = some a →
       parse_single_numeric p2 = some b →
       parse_numeric_expression raw =
         some { value := (min a b + max a b) / 2,
                range := some (min a b, max a b),
                approximate := (stripQualifiers (pyStrip raw.data)).1,
                operator := (stripQualifiers (pyStrip raw.data)).2.1 }) ∧
    (∀ (parsed : ParsedNum) (cu ru : Option String) (meta : FieldMeta) (fieldName : String)
       (lo hi v : ℚ) (u : Option String) (lo2 hi2 : ℚ),
       parsed.range = some (lo, hi) →
       parsed.value = (lo + hi) / 2 →
       (normalize_measurement_values parsed cu ru meta fieldName).1 = some (v, u, some (lo2, hi2)) →
       v = (lo2 + hi2) / 2) := by
  constructor
  · intro raw p1 p2 a b hsplit hpa hpb
    by_cases h0 : (pyStrip raw.data).isEmpty
    · exfalso
      have he : pyStrip raw.data = [] := by simpa using h0
      rw [he] at hsplit
      have hz : split_range_parts (stripQualifiers ([] : List Char)).2.2 = none := rfl
      rw [hz] at hsplit
      cases hsplit
    · simp only [parse_numeric_expression, h0, Bool.false_eq_true, if_false, hsplit, hpa, hpb]
  · intro parsed cu ru meta fieldName lo hi v u lo2 hi2 hr hv hn
    simp only [normalize_measurement_values] at hn
    repeat' split at hn
    all_goals
      first
        | (simp at hn; done)
        | (rw [hr] at hn
           simp only [Option.map_some', Option.some.injEq, Prod.mk.injEq] at hn
           obtain ⟨hv2, hu2, hlo2, hhi2⟩ := hn
           rw [← hv2, ← hlo2, ← hhi2, hv]
           all_goals
             first
               | rfl
               | (apply selectedConverter_affine
                  intro p hp
                  exact conv_entries_affine _ _
                    (lookupAssoc_eq_some_mem (by assumption)) p hp))

theorem C5_range_midpoint_witness :
    parse_numeric_expression "2 - 4" =
      some { value := (min (2 : ℚ) 4 + max (2 : ℚ) 4) / 2,
             range := some (min (2 : ℚ) 4, max (2 : ℚ) 4),
             approximate := (stripQualifiers (pyStrip ("2 - 4").data)).1,
             operator := (stripQualifiers (pyStrip ("2 - 4").data)).2.1 } ∧
    (180 : ℚ) = (120 + 240) / 2 := by
  constructor
  · exact C5_range_midpoint.1 "2 - 4" ("2").data ("4").data 2 4
      (by with_unfolding_all rfl) (by with_unfolding_all rfl) (by with_unfolding_all rfl)
  · exact C5_range_midpoint.2 ⟨3, some (2, 4), false, none⟩ (some "h") (some "h")
      ⟨[], some "time", some "min", ["min", "h", "s"], [], none, []⟩ "tempering_time"
      2 4 180 (some "min") 120 240 rfl (by with_unfolding_all rfl)
      (by with_unfolding_all rfl)

/-! ## C6 -/

theorem lookupAssoc_eq_none_of_not_mem_keys {α : Type} {g : List (String × α)} {k : String}
    (h : k ∉ g.map Prod.fst) : lookupAssoc g k = none := by
  unfold lookupAssoc
  rw [List.find?_eq_none.mpr]
  · rfl
  · intro p hp hpk
    exact h (List.mem_map.mpr ⟨p, hp, by simpa using hpk⟩)

theorem lookupAssoc_cons_self {α : Type} {e : String × α} {g : List (String × α)} {k : String}
    (h : e.1 = k) : lookupAssoc (e :: g) k = some e.2 := by
  unfold lookupAssoc
  rw [List.find?_cons_of_pos _ (by simpa using h)]
  rfl

theorem lookupAssoc_cons_other {α : Type} {e : String × α} {g : List (String × α)} {k : String}
    (h : e.1 ≠ k) : lookupAssoc (e :: g) k = lookupAssoc g k := by
  unfold lookupAssoc
  rw [List.find?_cons_of_neg _ (by simpa using h)]

theorem getD_lookup_setdefault (d : List (String × List Meas)) (k k' : String) :
    (lookupAssoc (setdefaultAssoc d k) k').getD [] = (lookupAssoc d k').getD [] := by
  unfold setdefaultAssoc
  split
  · rfl
  · unfold lookupAssoc
    rw [List.find?_append]
    cases hf : d.find? (fun p => p.1 == k') with
    | some p => simp [hf]
    | none =>
      by_cases hkk : k = k'
      · have hb : (k == k') = true := by simp [hkk]
        simp [List.find?, hb]
      · have hb : (k == k') = false := by simp [hkk]
        simp [List.find?, hb]

theorem hasKey_setdefault (d : List (String × List Meas)) (k : String) :
    hasKeyAssoc (setdefaultAssoc d k) k = true := by
  unfold setdefaultAssoc
  split
  · assumption
  · unfold hasKeyAssoc
    simp

theorem hasKey_update (d : List (String × List Meas)) (k k' : String) (f : List Meas → List Meas) :
    hasKeyAssoc (updateAssoc d k f) k' = hasKeyAssoc d k' := by
  unfold hasKeyAssoc updateAssoc
  induction d with
  | nil => rfl
  | cons p rest ih =>
    simp only [List.map_cons, List.any_cons] at *
    split <;> simp_all

theorem lookup_update_self (d : List (String × List Meas)) (k : String)
    (f : List Meas → List Meas) :
    lookupAssoc (updateAssoc d k f) k = (lookupAssoc d k).map f := by
  induction d with
  | nil => rfl
  | cons p rest ih =>
    by_cases hp : p.1 = k
    · unfold updateAssoc
      simp only [List.map_cons, hp]
      rw [if_pos (by simp)]
      rw [lookupAssoc_cons_self (by simp), lookupAssoc_cons_self hp]
      simp
    · unfold updateAssoc
      simp only [List.map_cons]
      rw [if_neg (by simpa using hp)]
      rw [lookupAssoc_cons_other hp, lookupAssoc_cons_other hp]
      exact ih

theorem lookup_update_other (d : List (String × List Meas)) (k k' : String)
    (f : List Meas → List Meas) (hne : k' ≠ k) :
    lookupAssoc (updateAssoc d k f) k' = lookupAssoc d k' := by
  induction d with
  | nil => rfl
  | cons p rest ih =>
    by_cases hp : p.1 = k
    · unfold updateAssoc
      simp only [List.map_cons]
      rw [if_pos (by simpa using hp)]
      rw [lookupAssoc_cons_other (by simp [hp]; exact fun h => hne h.symm),
          lookupAssoc_cons_other (by rw [hp]; exact fun h => hne h.symm)]
      exact ih
    · unfold updateAssoc
      simp only [List.map_cons]
      rw [if_neg (by simpa using hp)]
      by_cases hq : p.1 = k'
      · rw [lookupAssoc_cons_self hq, lookupAssoc_cons_self hq]
      · rw [lookupAssoc_cons_other hq, lookupAssoc_cons_other hq]
        exact ih

theorem getD_lookup_addMeasurement (d : List (String × List Meas)) (k k' : String) (m : Meas)
    (hk : hasKeyAssoc d k = true) :
    (lookupAssoc (addMeasurement d k m) k').getD [] =
    if k' = k then addIfNew ((lookupAssoc d k).getD []) m
    else (lookupAssoc d k').getD [] := by
  unfold addMeasurement
  by_cases hkk : k' = k
  · subst hkk
    rw [if_pos rfl, lookup_update_self]
    cases hl : lookupAssoc d k' with
    | none =>
      exfalso
      unfold hasKeyAssoc at hk
      unfold lookupAssoc at hl
      have h2 : (d.find? (fun p => p.1 == k')).isSome := by
        rw [List.find?_isSome]
        exact List.any_eq_true.mp hk
      cases hf : d.find? (fun p => p.1 == k') with
      | none => rw [hf] at h2; simp at h2
      | some p => rw [hf] at hl; simp at hl
    | some cur => simp
  · rw [if_neg hkk, lookup_update_other _ _ _ _ hkk]

theorem getD_lookup_foldl_addMeasurement (ms : List Meas) (d : List (String × List Meas))
    (k k' : String) (hk : hasKeyAssoc d k = true) :
    (lookupAssoc (ms.foldl (fun acc m => addMeasurement acc k m) d) k').getD [] =
    if k' = k then ms.foldl addIfNew ((lookupAssoc d k).getD [])
    else (lookupAssoc d k').getD [] := by
  induction ms generalizing d with
  | nil => simp only [List.foldl_nil]; split <;> simp_all
  | cons m rest ih =>
    simp only [List.foldl_cons]
    have hk' : hasKeyAssoc (addMeasurement d k m) k = true := by
      unfold addMeasurement
      rw [hasKey_update]
      exact hk
    rw [ih _ hk']
    have hself := getD_lookup_addMeasurement d k k m hk
    rw [if_pos rfl] at hself
    split
    · rw [hself]
    · exact getD_lookup_addMeasurement d k k' m hk |>.trans (by split <;> simp_all)

theorem getD_lookup_mergeFieldEntry (merged : List (String × List Meas))
    (e : String × List Meas) (k' : String) :
    (lookupAssoc (mergeFieldEntry merged e) k').getD [] =
    if k' = e.1 then e.2.foldl addIfNew ((lookupAssoc merged k').getD [])
    else (lookupAssoc merged k').getD [] := by
  unfold mergeFieldEntry
  split
  · rename_i hempty
    rw [List.isEmpty_iff.mp hempty]
    split <;> rfl
  · rw [getD_lookup_foldl_addMeasurement _ _ _ _ (hasKey_setdefault merged e.1)]
    split
    · rename_i heq
      rw [getD_lookup_setdefault, heq]
    · rw [getD_lookup_setdefault]

theorem getD_lookup_foldl_group (g : List (String × List Meas))
    (merged : List (String × List Meas)) (k : String)
    (hnd : (g.map Prod.fst).Nodup) :
    (lookupAssoc (g.foldl mergeFieldEntry merged) k).getD [] =
    ((lookupAssoc g k).getD []).foldl addIfNew ((lookupAssoc merged k).getD []) := by
  induction g generalizing merged with
  | nil => simp [lookupAssoc]
  | cons e rest ih =>
    simp only [List.map_cons, List.nodup_cons] at hnd
    simp only [List.foldl_cons]
    rw [ih _ hnd.2]
    by_cases hk : e.1 = k
    · have hrest : lookupAssoc rest k = none := by
        apply lookupAssoc_eq_none_of_not_mem_keys
        rw [← hk]
        exact hnd.1
      rw [lookupAssoc_cons_self hk, hrest]
      simp only [Option.getD_some, Option.getD_none, List.foldl_nil]
      have := getD_lookup_mergeFieldEntry merged e k
      rw [if_pos hk.symm] at this
      rw [this]
    · rw [lookupAssoc_cons_other hk]
      have := getD_lookup_mergeFieldEntry merged e k
      rw [if_neg (fun h => hk h.symm)] at this
      rw [this]

theorem getD_lookup_merge_go (groups : List (List (String × List Meas)))
    (init : List (String × List Meas)) (k : String)
    (hnd : ∀ g ∈ groups, (g.map Prod.fst).Nodup) :
    (lookupAssoc (groups.foldl (fun m g => g.foldl mergeFieldEntry m) init) k).getD [] =
    ((groups.map (fun g => (lookupAssoc g k).getD [])).flatten).foldl addIfNew
      ((lookupAssoc init k).getD []) := by
  induction groups generalizing init with
  | nil => simp
  | cons g gs ih =>
    simp only [List.foldl_cons, List.map_cons, List.flatten_cons]
    rw [ih _ (fun g' hg' => hnd g' (List.mem_cons_of_mem _ hg'))]
    rw [List.foldl_append]
    congr 1
    exact getD_lookup_foldl_group g init k (hnd g (List.mem_cons_self _ _))

theorem foldl_addIfNew_eq (l : List Meas) (acc : List Meas) :
    l.foldl addIfNew acc =
    acc ++ firstOccurrences (l.filter (fun e =>
      !acc.any (fun x => decide (measurement_key x = measurement_key e)))) := by
  induction l generalizing acc with
  | nil => simp [firstOccurrences]
  | cons m rest ih =>
    simp only [List.foldl_cons, List.filter_cons]
    by_cases hm : acc.any (fun x => decide (measurement_key x = measurement_key m)) = true
    · have haddm : addIfNew acc m = acc := by unfold addIfNew; rw [if_pos hm]
      rw [haddm]
      rw [if_neg (by simp [hm])]
      exact ih acc
    · have haddm : addIfNew acc m = acc ++ [m] := by
        unfold addIfNew
        rw [if_neg hm]
      rw [haddm]
      rw [if_pos (by simp [hm])]
      rw [ih (acc ++ [m]), List.append_assoc, List.singleton_append]
      congr 1
      conv_rhs => rw [firstOccurrences]
      congr 1
      rw [List.filter_filter]
      congr 1
      apply List.filter_congr
      intro e he
      simp only [List.any_append, List.any_cons, List.any_nil, Bool.or_false, Bool.not_or]
      rw [Bool.and_comm]
      congr 1
      simp [decide_eq_decide, eq_comm]

/-- Claim C6: per field, the merge returns the concatenation of the groups'
lists for that field (earlier groups first), keeping only the first occurrence
of each distinct `(field, rounded value, unit, rounded range, raw)` key in
insertion order. The hypothesis states that each input group is a dictionary,
i.e. has no duplicate field keys. -/
theorem C6_merge_first_occurrence :
    ∀ (groups : List (List (String × List Meas))),
      (∀ g ∈ groups, (g.map Prod.fst).Nodup) →
      ∀ fld : String,
        (lookupAssoc (merge_measurement_groups groups) fld).getD [] =
        firstOccurrences ((groups.map (fun g => (lookupAssoc g fld).getD [])).flatten) := by
  intro groups hnd fld
  unfold merge_measurement_groups
  rw [getD_lookup_merge_go groups [] fld hnd]
  have hbase : (lookupAssoc ([] : List (String × List Meas)) fld).getD [] = [] := rfl
  rw [hbase]
  rw [foldl_addIfNew_eq _ []]
  simp only [List.nil_append]
  congr 1
  rw [List.filter_eq_self]
  intro a ha
  simp

/-- Witness for C6: feeding the identical Measurement twice, once per pass,
yields exactly one entry in the merged result. -/
theorem C6_merge_first_occurrence_witness :
    (lookupAssoc (merge_measurement_groups
        [[("quenching_medium", [{ field := "quenching_medium", value := .str "oil",
                                  unit := none, raw := "oil", method := "rule_regex",
                                  sentence := "quenched in oil", trigger := "quench" }])],
         [("quenching_medium", [{ field := "quenching_medium", value := .str "oil",
                                  unit := none, raw := "oil", method := "nlp_dependency",
                                  sentence := "quenched in oil", trigger := "quench" }])]])
      "quenching_medium").getD [] =
    [{ field := "quenching_medium", value := .str "oil", unit := none, raw := "oil",
       method := "rule_regex", sentence := "quenched in oil", trigger := "quench" }] := by
  rw [C6_merge_first_occurrence _ (by simp) "quenching_medium"]
  simp only [lookupAssoc, List.map_cons, List.map_nil, List.find?]
  norm_num
  simp [firstOccurrences.eq_def, measurement_key, keyVal]

/-! ## C7 -/

/-- Invariant-carrying specification of the `selectAux` scan: a successful
result is an unclaimed in-range index of minimal distance. -/
theorem selectAux_spec (as ae : ℕ) (used : List ℕ) (all : List NumSpan) :
    ∀ (l : List NumSpan) (i : ℕ) (best : Option (ℕ × ℕ)),
    i + l.length = all.length →
    (∀ t, t < l.length → l.getD t ⟨0, 0, ""⟩ = all.getD (i + t) ⟨0, 0, ""⟩) →
    (best = none → ∀ j, j < i → used.contains j = true) →
    (∀ bi bd, best = some (bi, bd) →
        bi < i ∧ used.contains bi = false ∧
        bd = spanDistance as ae (all.getD bi ⟨0, 0, ""⟩) ∧
        ∀ j, j < i → used.contains j = false →
          bd ≤ spanDistance as ae (all.getD j ⟨0, 0, ""⟩)) →
    ∀ idx, selectAux as ae used l i best = some idx →
      idx < all.length ∧ used.contains idx = false ∧
      ∀ j, j < all.length → used.contains j = false →
        spanDistance as ae (all.getD idx ⟨0, 0, ""⟩) ≤
        spanDistance as ae (all.getD j ⟨0, 0, ""⟩) := by
  intro l
  induction l with
  | nil =>
    intro i best hlen hget hnone hsome idx hsel
    unfold selectAux at hsel
    cases best with
    | none => simp at hsel
    | some b =>
      simp only [Option.map_some'] at hsel
      cases hsel
      simp only [List.length_nil, Nat.add_zero] at hlen
      rcases hsome b.1 b.2 rfl with ⟨hlt, hcont, hbd, hmin⟩
      refine ⟨by omega, hcont, ?_⟩
      intro j hj hjc
      have := hmin j (by omega) hjc
      rw [← hbd]
      exact this
  | cons sp rest ih =>
    intro i best hlen hget hnone hsome idx hsel
    unfold selectAux at hsel
    have hsp : sp = all.getD i ⟨0, 0, ""⟩ := by
      have := hget 0 (by simp)
      simpa using this
    have hlen' : i + 1 + rest.length = all.length := by
      simp only [List.length_cons] at hlen
      omega
    have hget' : ∀ t, t < rest.length →
        rest.getD t ⟨0, 0, ""⟩ = all.getD (i + 1 + t) ⟨0, 0, ""⟩ := by
      intro t ht
      have := hget (t + 1) (by simp; omega)
      simpa [Nat.add_assoc, Nat.add_comm 1 t] using this
    by_cases hused : used.contains i = true
    · rw [if_pos hused] at hsel
      refine ih (i + 1) best hlen' hget' ?_ ?_ idx hsel
      · intro hb j hj
        by_cases hji : j < i
        · exact hnone hb j hji
        · have : j = i := by omega
          subst this
          exact hused
      · intro bi bd hb
        rcases hsome bi bd hb with ⟨hlt, hcont, hbd, hmin⟩
        refine ⟨by omega, hcont, hbd, ?_⟩
        intro j hj hjc
        by_cases hji : j < i
        · exact hmin j hji hjc
        · have : j = i := by omega
          subst this
          rw [hjc] at hused
          cases hused
    · rw [if_neg hused] at hsel
      simp only [Bool.not_eq_true] at hused
      cases best with
      | none =>
        refine ih (i + 1) (some (i, spanDistance as ae sp)) hlen' hget'
          (by intro h; cases h) ?_ idx hsel
        intro bi bd hb
        have hbi : bi = i ∧ bd = spanDistance as ae sp := by
          constructor <;> · injection hb with h1; cases h1; rfl
        rcases hbi with ⟨hbi1, hbi2⟩
        subst hbi1
        subst hbi2
        refine ⟨by omega, hused, by rw [hsp], ?_⟩
        intro j hj hjc
        by_cases hji : j < bi
        · have := hnone rfl j hji
          rw [hjc] at this
          cases this
        · have : j = bi := by omega
          subst this
          rw [hsp]
      | some b =>
        obtain ⟨bi0, bd0⟩ := b
        simp only [] at hsel
        rcases hsome bi0 bd0 rfl with ⟨hlt, hcont, hbd, hmin⟩
        by_cases hd : spanDistance as ae sp < bd0
        · rw [if_pos hd] at hsel
          refine ih (i + 1) (some (i, spanDistance as ae sp)) hlen' hget'
            (by intro h; cases h) ?_ idx hsel
          intro bi bd hb
          have hbi : bi = i ∧ bd = spanDistance as ae sp := by
            constructor <;> · injection hb with h1; cases h1; rfl
          rcases hbi with ⟨hbi1, hbi2⟩
          subst hbi1
          subst hbi2
          refine ⟨by omega, hused, by rw [hsp], ?_⟩
          intro j hj hjc
          by_cases hji : j < bi
          · have h1 := hmin j hji hjc
            omega
          · have : j = bi := by omega
            subst this
            rw [hsp]
        · rw [if_neg hd] at hsel
          refine ih (i + 1) (some (bi0, bd0)) hlen' hget' (by intro h; cases h) ?_ idx hsel
          intro bi bd hb
          have hbi : bi = bi0 ∧ bd = bd0 := by
            constructor <;> · injection hb with h1; cases h1; rfl
          rcases hbi with ⟨hbi1, hbi2⟩
          subst hbi1
          subst hbi2
          refine ⟨by omega, hcont, hbd, ?_⟩
          intro j hj hjc
          by_cases hji : j < i
          · exact hmin j hji hjc
          · have : j = i := by omega
            subst this
            rw [hsp] at hd
            omega

/-- `select_closest_span` returns an unclaimed in-range index minimizing the
penalized distance. -/
theorem select_closest_span_spec (as ae : ℕ) (spans : List NumSpan) (used : List ℕ)
    (idx : ℕ) (hsel : select_closest_span as ae spans used = some idx) :
    idx < spans.length ∧ used.contains idx = false ∧
    ∀ j, j < spans.length → used.contains j = false →
      spanDistance as ae (spans.getD idx ⟨0, 0, ""⟩) ≤
      spanDistance as ae (spans.getD j ⟨0, 0, ""⟩) := by
  refine selectAux_spec as ae used spans spans 0 none (by simp) (fun t ht => by simp)
    ?_ ?_ idx hsel
  · intro _ j hj
    omega
  · intro bi bd hb
    cases hb

/-- The `used` list computed by the per-alias loop: unchanged, or extended by
the selected index. -/
theorem processAlias_used (sentence fieldName : String) (meta : FieldMeta) (method : String)
    (spans : List NumSpan) (st : ExtState) (am : String × ℕ × ℕ) :
    (processAlias sentence fieldName meta method spans st am).used =
    (match select_closest_span am.2.1 am.2.2 spans st.used with
     | none => st.used
     | some idx => st.used ++ [idx]) := by
  unfold processAlias
  cases hsel : select_closest_span am.2.1 am.2.2 spans st.used with
  | none => rfl
  | some idx =>
    dsimp only
    split
    · rfl
    · split <;> rfl

theorem processAlias_nodup (sentence fieldName : String) (meta : FieldMeta) (method : String)
    (spans : List NumSpan) (st : ExtState) (am : String × ℕ × ℕ)
    (h : st.used.Nodup) :
    (processAlias sentence fieldName meta method spans st am).used.Nodup := by
  rw [processAlias_used]
  cases hsel : select_closest_span am.2.1 am.2.2 spans st.used with
  | none => exact h
  | some idx =>
    have hspec := select_closest_span_spec am.2.1 am.2.2 spans st.used idx hsel
    dsimp only
    rw [List.nodup_append]
    refine ⟨h, List.nodup_singleton _, ?_⟩
    intro a ha hb
    have : a = idx := by simpa using hb
    subst this
    have : a ∈ st.used := ha
    have hco : st.used.contains a = true := by
      simpa [List.contains_eq_any_beq] using List.elem_eq_true_of_mem this
    rw [hspec.2.1] at hco
    cases hco

set_option maxRecDepth 4000 in
/-- Claim C7: within a sentence, each alias occurrence is assigned an
unclaimed numeric span minimizing
`min(|aliasStart−spanStart|, |aliasEnd−spanEnd|)` plus the 10000 penalty for
spans starting before the alias ends; the chosen span is claimed, so the
per-sentence alias-to-span assignment never claims one span twice (the claimed
index list stays duplicate-free across the whole alias loop). -/
theorem C7_closest_unclaimed_one_to_one :
    (∀ (as ae : ℕ) (spans : List NumSpan) (used : List ℕ) (idx : ℕ),
      select_closest_span as ae spans used = some idx →
      idx < spans.length ∧ used.contains idx = false ∧
      ∀ j, j < spans.length → used.contains j = false →
        spanDistance as ae (spans.getD idx ⟨0, 0, ""⟩) ≤
        spanDistance as ae (spans.getD j ⟨0, 0, ""⟩)) ∧
    (∀ (sentence fieldName : String) (meta : FieldMeta) (method : String)
       (spans : List NumSpan) (ams : List (String × ℕ × ℕ)) (st : ExtState),
      st.used.Nodup →
      (ams.foldl (processAlias sentence fieldName meta method spans) st).used.Nodup) := by
  constructor
  · exact select_closest_span_spec
  · intro sentence fieldName meta method spans ams
    induction ams with
    | nil => intro st h; exact h
    | cons am rest ih =>
      intro st h
      exact ih _ (processAlias_nodup sentence fieldName meta method spans st am h)

/-- Witness for C7: the selection conclusion at a concrete span list, and the
duplicate-freedom conclusion for a concrete alias loop starting from the empty
claimed list. -/
theorem C7_closest_unclaimed_one_to_one_witness :
    (0 < [(⟨12, 15, "200"⟩ : NumSpan), ⟨23, 24, "2"⟩].length ∧
      ([] : List ℕ).contains 1 = false ∧
      ∀ j, j < [(⟨12, 15, "200"⟩ : NumSpan), ⟨23, 24, "2"⟩].length →
        ([] : List ℕ).contains j = false →
        spanDistance 19 22 ([(⟨12, 15, "200"⟩ : NumSpan), ⟨23, 24, "2"⟩].getD 1 ⟨0, 0, ""⟩) ≤
        spanDistance 19 22 ([(⟨12, 15, "200"⟩ : NumSpan), ⟨23, 24, "2"⟩].getD j ⟨0, 0, ""⟩)) ∧
    (([("for", (19, 22)), ("for", (19, 22))].foldl
        (processAlias "tempered at 200 °C for 2 h" "tempering_time"
          ((lookupAssoc HEAT_TREATMENT_FIELDS "tempering_time").getD {}) "rule_regex"
          [⟨12, 15, "200"⟩, ⟨23, 24, "2"⟩])
        { used := [], meas := [], logs := [] }).used).Nodup := by
  constructor
  · have h := C7_closest_unclaimed_one_to_one.1 19 22 [⟨12, 15, "200"⟩, ⟨23, 24, "2"⟩] [] 1
      (by decide)
    refine ⟨by decide, by decide, h.2.2⟩
  · exact C7_closest_unclaimed_one_to_one.2 "tempered at 200 °C for 2 h" "tempering_time"
      ((lookupAssoc HEAT_TREATMENT_FIELDS "tempering_time").getD {}) "rule_regex"
      [⟨12, 15, "200"⟩, ⟨23, 24, "2"⟩] [("for", (19, 22)), ("for", (19, 22))]
      { used := [], meas := [], logs := [] } (by simp)

/-! ## C9 -/

theorem pyStrip_sublist (s : List Char) : List.Sublist (pyStrip s) s := by
  have h1 : List.Sublist (dropTrailingWs (s.dropWhile pyWs)) (s.dropWhile pyWs) := by
    unfold dropTrailingWs
    have h := List.dropWhile_sublist (p := pyWs) (l := (s.dropWhile pyWs).reverse)
    simpa using h.reverse
  exact h1.trans (List.dropWhile_sublist _)

theorem all_pyStripDrop {p : Char → Bool} {l : List Char} (h : ∀ c ∈ l, p c = false) (k : ℕ) :
    ∀ c ∈ pyStrip (l.drop k), p c = false :=
  fun c hc => h c (List.drop_subset k l ((pyStrip_sublist _).subset hc))

theorem findAliasAux_nil (alias0 : List Char) (kind : AliasKind) (fuel pos : ℕ)
    (prev : Option Char) : findAliasAux alias0 kind fuel [] pos prev = [] := by
  cases fuel <;> rfl

theorem findAliasAux_zero (alias0 : List Char) (kind : AliasKind) (s : List Char) (pos : ℕ)
    (prev : Option Char) : findAliasAux alias0 kind 0 s pos prev = [] := by
  cases s <;> rfl

theorem findAliasAux_succ (alias0 : List Char) (kind : AliasKind) (fuel : ℕ) (c : Char)
    (rest : List Char) (pos : ℕ) (prev : Option Char) :
    findAliasAux alias0 kind (fuel + 1) (c :: rest) pos prev =
      (let s := c :: rest
       let n := alias0.length
       if ciPrefix alias0 s && aliasBoundaryOK kind prev ((s.drop n).head?) then
         (pos, pos + n) :: findAliasAux alias0 kind fuel (s.drop n) (pos + n) ((s.take n).getLast?)
       else
         findAliasAux alias0 kind fuel rest (pos + 1) (some c)) := rfl

theorem findAliasAux_singleLetter_spec (c : Char) (t : List Char) :
    ∀ (fuel : ℕ) (s : List Char) (pos : ℕ) (prev : Option Char),
      s = t.drop pos →
      prev = (if pos = 0 then none else t[pos - 1]?) →
      ∀ se ∈ findAliasAux [c] .singleLetter fuel s pos prev,
        se.2 = se.1 + 1 ∧
        (∀ p, 0 < se.1 → t[se.1 - 1]? = some p → (isAlnumCh p || p = '°') = false) ∧
        (∀ q, t[se.2]? = some q → isAlnumCh q = false) := by
  intro fuel
  induction fuel with
  | zero =>
    intro s pos prev hs hp se hse
    rw [findAliasAux_zero] at hse
    cases hse
  | succ n ih =>
    intro s pos prev hs hp se hse
    cases s with
    | nil =>
      rw [findAliasAux_nil] at hse
      cases hse
    | cons c0 rest =>
      have hc0 : t[pos]? = some c0 := by
        rw [← List.head?_drop, ← hs]
        rfl
      have hrest : rest = t.drop (pos + 1) := by
        have h2 := congrArg List.tail hs
        simpa [List.tail_drop] using h2
      rw [findAliasAux_succ] at hse
      dsimp only at hse
      simp only [List.length_cons, List.length_nil, Nat.zero_add] at hse
      split at hse
      next hguard =>
        have hb : aliasBoundaryOK .singleLetter prev ((List.drop 1 (c0 :: rest)).head?) = true := by
          have h4 := hguard
          rw [Bool.and_eq_true] at h4
          exact h4.2
        rcases List.mem_cons.mp hse with h1 | h1
        · subst h1
          refine ⟨rfl, ?_, ?_⟩
          · intro p hpos hpg
            dsimp only at hpos hpg
            rw [hp, if_neg (by omega), hpg] at hb
            simp only [aliasBoundaryOK.eq_def, Bool.and_eq_true] at hb
            simpa using hb.1
          · intro q hqg
            dsimp only at hqg
            have hnext : (List.drop 1 (c0 :: rest)).head? = t[pos + 1]? := by
              rw [List.drop_one, List.tail_cons, hrest, List.head?_drop]
            rw [hnext, hqg] at hb
            simp only [aliasBoundaryOK.eq_def, Bool.and_eq_true] at hb
            simpa using hb.2
        · refine ih _ _ _ ?_ ?_ se h1
          · rw [List.drop_one, List.tail_cons]
            exact hrest
          · rw [if_neg (by omega)]
            simp [Nat.add_sub_cancel, hc0]
      next hguard =>
        refine ih _ _ _ hrest ?_ se hse
        rw [if_neg (by omega)]
        simp [Nat.add_sub_cancel, hc0]

theorem find_alias_matches_singleLetter (text a : String) (c : Char)
    (hd : a.data = [c]) (hc : isAlphaCh c = true) :
    ∀ se ∈ find_alias_matches text a,
      se.2 = se.1 + 1 ∧
      (∀ p, 0 < se.1 → text.data[se.1 - 1]? = some p → (isAlnumCh p || p = '°') = false) ∧
      (∀ q, text.data[se.2]? = some q → isAlnumCh q = false) := by
  intro se hse
  rw [find_alias_matches] at hse
  split at hse
  · cases hse
  next =>
    have hk : build_alias_kind a = .singleLetter := by
      rw [build_alias_kind, hd]
      simp [hc]
    rw [hd, hk] at hse
    exact findAliasAux_singleLetter_spec c text.data text.data.length text.data 0 none
      (by simp) (by simp) se hse

/-- Claim C10: for every single-ASCII-letter field alias, a reported alias
occurrence spans exactly one character and requires the character before it
(if any) to be neither alphanumeric nor the degree sign °, and the character
after it (if any) to be non-alphanumeric; consequently the "C" inside
"980 °C" triggers no carbon composition Measurement. -/
theorem C10_single_letter_boundaries :
    (∀ (text a : String) (c : Char), a.data = [c] → isAlphaCh c = true →
       ∀ se ∈ find_alias_matches text a,
         se.2 = se.1 + 1 ∧
         (∀ p, 0 < se.1 → text.data[se.1 - 1]? = some p → (isAlnumCh p || p = '°') = false) ∧
         (∀ q, text.data[se.2]? = some q → isAlnumCh q = false)) ∧
    lookupAssoc (extract_composition "980 °C").1 "C" = some [] := by
  constructor
  · intro text a c hd hc
    exact find_alias_matches_singleLetter text a c hd hc
  · with_unfolding_all rfl

theorem C10_single_letter_boundaries_witness :
    (1 : ℕ) = 0 + 1 ∧ isAlnumCh ':' = false := by
  have h := C10_single_letter_boundaries.1 "C: 1" "C" 'C' (by decide) (by decide) (0, 1)
    (by decide)
  exact ⟨h.1, h.2.2 ':' (by decide)⟩
